import Mathlib

/-!
# Token store over a document database

A shallow embedding of `token_store.go` and of `ClientStore.RemoveByID` from
`client_store.go`.

* A collection is the list of its documents; `InsertOne` refuses a document whose
  `_id` is already present, `FindOne` and `DeleteOne` filter on `_id`.
* The driver is not part of the repository. Every driver call (`StartSession`,
  `StartTransaction`, `InsertOne`, `FindOne`, `DeleteOne`, `CommitTransaction`) takes
  its outcome from a script of `Fault`s, consumed one entry per call in program
  order; an exhausted script means that the remaining calls behave normally. The
  script `[]` is a run with no storage failure.
* An error carries the labels the driver attaches to it. `WithTransaction` runs its
  callback again after an error labelled `TransientTransactionError` and commits
  again after one labelled `UnknownTransactionCommitResult`, as long as its timer has
  not expired; `retries` is the number of times the timer is found not expired.
* A method that dereferences a nil result (`result.DeletedCount` after a delete that
  returned no result) panics; such a method returns an `Option`, `none` being the
  panic.
* `time.Time` is an instant counted in nanoseconds (UTC), `time.Duration` a number
  of nanoseconds; both are unbounded integers.
* `encoding/json` is a parameter (`Codec`), `primitive.NewObjectID()` a parameter
  of `Create`.
* The four collection names of the configuration are taken to be distinct, as in
  `NewDefaultTokenConfig`; the transaction collection is never written and is left
  out of `DB`.
-/

namespace Mongo

/-! ## Errors, time, grants -/

/-- A Go `error` value: its message, the labels of the driver (`HasErrorLabel`) and
the value of `IsMaxTimeMSExpiredError`. -/
structure Error where
  msg : String
  labels : List String
  maxTimeMSExpired : Bool
deriving DecidableEq, Repr

/-- Function `errors.New`: an error with a message and no label. -/
def errors.New (msg : String) : Error := ⟨msg, [], false⟩

/-- Method `HasErrorLabel`. -/
def Error.HasErrorLabel (e : Error) (label : String) : Bool := e.labels.contains label

/-- Label `driver.TransientTransactionError`. -/
def TransientTransactionError : String := "TransientTransactionError"

/-- Label `driver.UnknownTransactionCommitResult`. -/
def UnknownTransactionCommitResult : String := "UnknownTransactionCommitResult"

/-- Value `mongo.ErrNoDocuments`. -/
def ErrNoDocuments : Error := errors.New "mongo: no documents in result"

/-- Value `mongo.ErrUnacknowledgedWrite`. -/
def ErrUnacknowledgedWrite : Error := errors.New "unacknowledged write"

/-- Error of an insert whose `_id` is already in the collection. -/
def ErrDuplicateKey : Error := errors.New "E11000 duplicate key error"

/-- Type `time.Time`: nanoseconds since the Unix epoch, in UTC. -/
structure Time where
  unixNano : Int
deriving DecidableEq, Repr

/-- Type `time.Duration`: a count of nanoseconds. -/
abbrev Duration := Int

/-- Number of nanoseconds in a second (`time.Second`). -/
def nanosPerSecond : Int := 1000000000

/-- Method `Time.Add`. -/
def Time.Add (t : Time) (d : Duration) : Time := ⟨t.unixNano + d⟩

/-- Method `Time.Second`: the second offset within the minute, in `[0, 59]`. -/
def Time.Second (t : Time) : Int := (t.unixNano / nanosPerSecond) % 60

/-- Serialized grant payload. -/
abbrev Bytes := List Nat

/-- The getters of `oauth2.TokenInfo` (fields of `models.Token`). -/
structure TokenInfo where
  ClientID : String
  UserID : String
  RedirectURI : String
  Scope : String
  Code : String
  CodeCreateAt : Time
  CodeExpiresIn : Duration
  Access : String
  AccessCreateAt : Time
  AccessExpiresIn : Duration
  Refresh : String
  RefreshCreateAt : Time
  RefreshExpiresIn : Duration
deriving DecidableEq, Repr

/-- Functions `json.Marshal` and `json.Unmarshal` at the grant type. -/
structure Codec where
  Marshal : TokenInfo → Except Error Bytes
  Unmarshal : Bytes → Except Error TokenInfo

/-- Type `primitive.ObjectID`: twelve bytes. -/
structure ObjectID where
  bytes : List Nat
  size : bytes.length = 12

/-- One lower-case hexadecimal digit. -/
def hexDigit (n : Nat) : Char :=
  if n < 10 then Char.ofNat (48 + n) else Char.ofNat (87 + n)

/-- Two hexadecimal digits per byte. -/
def hexEncode : List Nat → List Char
  | [] => []
  | b :: bs => hexDigit (b / 16 % 16) :: hexDigit (b % 16) :: hexEncode bs

/-- Method `ObjectID.Hex`. -/
def ObjectID.Hex (id : ObjectID) : String := String.mk (hexEncode id.bytes)

/-! ## Documents and collections -/

/-- Document of the basic collection. -/
structure basicData where
  ID : String
  Data : Bytes
  ExpiredAt : Time
deriving DecidableEq, Repr

/-- Document of the access and of the refresh collection. -/
structure tokenData where
  ID : String
  BasicID : String
  ExpiredAt : Time
deriving DecidableEq, Repr

/-- Document of the clients collection. -/
structure client where
  ID : String
  Secret : String
  Domain : String
  UserID : String
deriving DecidableEq, Repr

/-- The three collections the token store reads and writes. -/
structure DB where
  basic : List basicData
  access : List tokenData
  refresh : List tokenData
deriving DecidableEq, Repr

/-- The database with no document. -/
def DB.empty : DB := ⟨[], [], []⟩

/-- Outcome the environment imposes on one driver call. -/
inductive Fault where
  /-- the call behaves normally -/
  | ok
  /-- the server does not execute the call; the driver returns a nil result and the
  error `e` -/
  | fail (e : Error)
  /-- the server executes the call; the driver still returns a nil result and the
  error `e` (a write-concern error, a reply that is lost) -/
  | failApplied (e : Error)
  /-- a write sent unacknowledged: the server executes it, the driver returns a result
  with zero counts together with `ErrUnacknowledgedWrite`; a call that is not a write
  behaves normally -/
  | unacknowledged
deriving DecidableEq, Repr

/-- Outcome of the next driver call and the rest of the script. -/
def nextFault : List Fault → Fault × List Fault
  | [] => (Fault.ok, [])
  | f :: fs => (f, fs)

/-- Type `mongo.DeleteResult`. -/
structure DeleteResult where
  DeletedCount : Nat
deriving DecidableEq, Repr

/-- Filter on `_id`. -/
def byID {D : Type} (key : D → String) (k : String) : D → Bool := fun d => key d == k

/-- Method `Client.StartSession`: its error. -/
def StartSession (f : Fault) : Option Error :=
  match f with
  | Fault.ok => none
  | Fault.fail e => some e
  | Fault.failApplied e => some e
  | Fault.unacknowledged => none

/-- Method `Session.StartTransaction`: its error. -/
def StartTransaction (f : Fault) : Option Error :=
  match f with
  | Fault.ok => none
  | Fault.fail e => some e
  | Fault.failApplied e => some e
  | Fault.unacknowledged => none

/-- Method `Session.CommitTransaction`: whether the server has committed, and the
error. -/
def CommitTransaction (f : Fault) : Bool × Option Error :=
  match f with
  | Fault.ok => (true, none)
  | Fault.fail e => (false, some e)
  | Fault.failApplied e => (true, some e)
  | Fault.unacknowledged => (true, none)

/-- Method `Collection.InsertOne`; only the error is used by the callers. -/
def InsertOne {D : Type} (key : D → String) (c : List D) (doc : D) (f : Fault) :
    List D × Option Error :=
  let applied : List D × Option Error :=
    if c.any (byID key (key doc)) then (c, some ErrDuplicateKey) else (c ++ [doc], none)
  match f with
  | Fault.ok => applied
  | Fault.fail e => (c, some e)
  | Fault.failApplied e => (applied.1, some e)
  | Fault.unacknowledged => (applied.1, some ErrUnacknowledgedWrite)

/-- Method `Collection.FindOne` followed by `Decode`. -/
def FindOne {D : Type} (key : D → String) (c : List D) (k : String) (f : Fault) :
    Except Error D :=
  let found : Except Error D :=
    match c.find? (byID key k) with
    | some d => Except.ok d
    | none => Except.error ErrNoDocuments
  match f with
  | Fault.ok => found
  | Fault.fail e => Except.error e
  | Fault.failApplied e => Except.error e
  | Fault.unacknowledged => found

/-- Method `Collection.DeleteOne`: the collection afterwards, the result pointer
(`none` is nil) and the error. -/
def DeleteOne {D : Type} (key : D → String) (c : List D) (k : String) (f : Fault) :
    List D × Option DeleteResult × Option Error :=
  match f with
  | Fault.ok => (c.eraseP (byID key k), some ⟨if c.any (byID key k) then 1 else 0⟩, none)
  | Fault.fail e => (c, none, some e)
  | Fault.failApplied e => (c.eraseP (byID key k), none, some e)
  | Fault.unacknowledged => (c.eraseP (byID key k), some ⟨0⟩, some ErrUnacknowledgedWrite)

/-- Where the loop of `WithTransaction` stands: about to start a transaction and run
the callback, or about to commit the writes `staged` by the callback. -/
inductive TxnPhase where
  | start
  | commit (staged : DB)

/-- One pass through the loop of `Session.WithTransaction` on the committed data
`cur`. `retry` is the rest of the loop, `none` when the timer has expired.
`StartTransaction` failing returns its error at once. An error of the callback
aborts the transaction (its writes are discarded) and, when labelled
`TransientTransactionError`, starts over. An error of the commit labelled
`UnknownTransactionCommitResult` (and not a max-time expiry) commits again, one
labelled `TransientTransactionError` starts over. -/
def WithTransaction.step (callback : DB → List Fault → DB × Option Error × List Fault)
    (retry : Option (TxnPhase → DB → List Fault → DB × Option Error × List Fault))
    (phase : TxnPhase) (cur : DB) (fs : List Fault) : DB × Option Error × List Fault :=
  let commitStaged (staged : DB) (fs1 : List Fault) : DB × Option Error × List Fault :=
    let c := CommitTransaction (nextFault fs1).1
    let fs2 := (nextFault fs1).2
    let cur1 := if c.1 then staged else cur
    match c.2 with
    | none => (staged, none, fs2)
    | some e =>
      match retry with
      | none => (cur1, some e, fs2)
      | some again =>
        if e.HasErrorLabel UnknownTransactionCommitResult ∧ e.maxTimeMSExpired = false then
          again (TxnPhase.commit staged) cur1 fs2
        else if e.HasErrorLabel TransientTransactionError then again TxnPhase.start cur1 fs2
        else (cur1, some e, fs2)
  match phase with
  | TxnPhase.commit staged => commitStaged staged fs
  | TxnPhase.start =>
    match StartTransaction (nextFault fs).1 with
    | some e => (cur, some e, (nextFault fs).2)
    | none =>
      let r := callback cur (nextFault fs).2
      match r.2.1 with
      | some e =>
        match retry with
        | none => (cur, some e, r.2.2)
        | some again =>
          if e.HasErrorLabel TransientTransactionError then again TxnPhase.start cur r.2.2
          else (cur, some e, r.2.2)
      | none => commitStaged r.1 r.2.2

/-- The loop of `Session.WithTransaction`, with `retries` checks of the timer that
find it not expired. -/
def WithTransaction.loop (callback : DB → List Fault → DB × Option Error × List Fault) :
    Nat → TxnPhase → DB → List Fault → DB × Option Error × List Fault
  | 0 => WithTransaction.step callback none
  | n + 1 => WithTransaction.step callback (some (WithTransaction.loop callback n))

/-- Method `Session.WithTransaction`: the data afterwards, the error and the rest of
the script. -/
def WithTransaction (db : DB) (fs : List Fault) (retries : Nat)
    (callback : DB → List Fault → DB × Option Error × List Fault) :
    DB × Option Error × List Fault :=
  WithTransaction.loop callback retries TxnPhase.start db fs

/-! ## TokenStore -/

namespace TokenStore

/-- Method `cHandler`: when `StartSession` returns an error the handler is not run
and the caller keeps the values it had (`unchanged`). -/
def cHandler {α : Type} (fs : List Fault) (unchanged : α) (handler : List Fault → α) : α :=
  match StartSession (nextFault fs).1 with
  | some _ => unchanged
  | none => handler (nextFault fs).2

/-- Lines 142 to 150 of `Create`: the pair `(aexp, rexp)`. -/
def Create.expiry (info : TokenInfo) : Time × Time :=
  let aexp := info.AccessCreateAt.Add info.AccessExpiresIn
  if info.Refresh ≠ "" then
    let rexp := info.RefreshCreateAt.Add info.RefreshExpiresIn
    if aexp.Second > rexp.Second then (rexp, rexp) else (aexp, rexp)
  else (aexp, aexp)

/-- The callback that `Create` passes to `WithTransaction`. -/
def Create.txnBody (id : ObjectID) (info : TokenInfo) (jsonData : Bytes) (aexp rexp : Time)
    (db : DB) (fs : List Fault) : DB × Option Error × List Fault :=
  let i1 := InsertOne basicData.ID db.basic ⟨id.Hex, jsonData, rexp⟩ (nextFault fs).1
  let fs1 := (nextFault fs).2
  match i1.2 with
  | some insertErr => ({ db with basic := i1.1 }, some insertErr, fs1)
  | none =>
    let i2 := InsertOne tokenData.ID db.access ⟨info.Access, id.Hex, aexp⟩ (nextFault fs1).1
    let fs2 := (nextFault fs1).2
    match i2.2 with
    | some insertErr => ({ db with basic := i1.1, access := i2.1 }, some insertErr, fs2)
    | none =>
      if info.Refresh ≠ "" then
        let i3 := InsertOne tokenData.ID db.refresh ⟨info.Refresh, id.Hex, rexp⟩
          (nextFault fs2).1
        let fs3 := (nextFault fs2).2
        match i3.2 with
        | some insertErr => (⟨i1.1, i2.1, i3.1⟩, some insertErr, fs3)
        | none => (⟨i1.1, i2.1, i3.1⟩, none, fs3)
      else ({ db with basic := i1.1, access := i2.1 }, none, fs2)

/-- Method `Create`; `id` is the value of `primitive.NewObjectID()`, `retries` the
number of times the timer of `WithTransaction` is found not expired. Returns the
database afterwards and `err`. -/
def Create (json : Codec) (db : DB) (fs : List Fault) (retries : Nat) (id : ObjectID)
    (info : TokenInfo) : DB × Option Error :=
  match json.Marshal info with
  | Except.error e => (db, some e)
  | Except.ok jsonData =>
    if info.Code ≠ "" then
      cHandler fs (db, none) fun fs1 =>
        let i := InsertOne basicData.ID db.basic
          ⟨info.Code, jsonData, info.CodeCreateAt.Add info.CodeExpiresIn⟩ (nextFault fs1).1
        ({ db with basic := i.1 }, i.2)
    else
      cHandler fs (db, none) fun fs1 =>
        let t := WithTransaction db fs1 retries
          (Create.txnBody id info jsonData (Create.expiry info).1 (Create.expiry info).2)
        (t.1, t.2.1)

/-- The test on the outcome of `DeleteOne` shared by the three `RemoveBy` methods:
`if derr != nil { if result.DeletedCount == 0 { return }; err = derr }`. The value
is `err`; `none` is the nil-pointer panic of `result.DeletedCount` on a nil result. -/
def removeErr (result : Option DeleteResult) (derr : Option Error) : Option (Option Error) :=
  match derr with
  | none => some none
  | some e =>
    match result with
    | none => none
    | some r => if r.DeletedCount = 0 then some none else some (some e)

/-- Method `RemoveByCode`; `none` is a panic. -/
def RemoveByCode (db : DB) (fs : List Fault) (code : String) : Option (DB × Option Error) :=
  cHandler fs (some (db, none)) fun fs1 =>
    let d := DeleteOne basicData.ID db.basic code (nextFault fs1).1
    (removeErr d.2.1 d.2.2).map fun err => ({ db with basic := d.1 }, err)

/-- Method `RemoveByAccess`; `none` is a panic. -/
def RemoveByAccess (db : DB) (fs : List Fault) (access : String) :
    Option (DB × Option Error) :=
  cHandler fs (some (db, none)) fun fs1 =>
    let d := DeleteOne tokenData.ID db.access access (nextFault fs1).1
    (removeErr d.2.1 d.2.2).map fun err => ({ db with access := d.1 }, err)

/-- Method `RemoveByRefresh`; `none` is a panic. -/
def RemoveByRefresh (db : DB) (fs : List Fault) (refresh : String) :
    Option (DB × Option Error) :=
  cHandler fs (some (db, none)) fun fs1 =>
    let d := DeleteOne tokenData.ID db.refresh refresh (nextFault fs1).1
    (removeErr d.2.1 d.2.2).map fun err => ({ db with refresh := d.1 }, err)

/-- Method `getData`: `(tokenInfo, err)` and the rest of the script. -/
def getData (json : Codec) (db : DB) (fs : List Fault) (basicID : String) :
    (Option TokenInfo × Option Error) × List Fault :=
  cHandler fs ((none, none), (nextFault fs).2) fun fs1 =>
    match FindOne basicData.ID db.basic basicID (nextFault fs1).1 with
    | Except.error rerr =>
      if rerr = ErrNoDocuments then ((none, none), (nextFault fs1).2)
      else ((none, some rerr), (nextFault fs1).2)
    | Except.ok data =>
      match json.Unmarshal data.Data with
      | Except.error e => ((none, some e), (nextFault fs1).2)
      | Except.ok tokenModel => ((some tokenModel, none), (nextFault fs1).2)

/-- Method `getBasicID` on the collection `c` (the access or the refresh one):
`(basicID, err)` and the rest of the script. -/
def getBasicID (c : List tokenData) (fs : List Fault) (token : String) :
    (String × Option Error) × List Fault :=
  cHandler fs (("", none), (nextFault fs).2) fun fs1 =>
    match FindOne tokenData.ID c token (nextFault fs1).1 with
    | Except.error rerr =>
      if rerr = ErrNoDocuments then (("", none), (nextFault fs1).2)
      else (("", some rerr), (nextFault fs1).2)
    | Except.ok data => ((data.BasicID, none), (nextFault fs1).2)

/-- Method `GetByCode`. -/
def GetByCode (json : Codec) (db : DB) (fs : List Fault) (code : String) :
    Option TokenInfo × Option Error :=
  (getData json db fs code).1

/-- Method `GetByAccess`. -/
def GetByAccess (json : Codec) (db : DB) (fs : List Fault) (access : String) :
    Option TokenInfo × Option Error :=
  let b := getBasicID db.access fs access
  if b.1.2 ≠ none ∧ b.1.1 = "" then (none, b.1.2)
  else (getData json db b.2 b.1.1).1

/-- Method `GetByRefresh`. -/
def GetByRefresh (json : Codec) (db : DB) (fs : List Fault) (refresh : String) :
    Option TokenInfo × Option Error :=
  let b := getBasicID db.refresh fs refresh
  if b.1.2 ≠ none ∧ b.1.1 = "" then (none, b.1.2)
  else (getData json db b.2 b.1.1).1

end TokenStore

/-! ## ClientStore -/

namespace ClientStore

/-- Method `RemoveByID` of the client store (its `cHandler` starts no session);
`none` is a panic. -/
def RemoveByID (clients : List client) (f : Fault) (id : String) :
    Option (List client × Option Error) :=
  let d := DeleteOne client.ID clients id f
  match d.2.2 with
  | some cerr => some (d.1, some cerr)
  | none =>
    match d.2.1 with
    | none => none
    | some result =>
      if result.DeletedCount = 0 then some (d.1, some (errors.New "Unknown client"))
      else some (d.1, none)

end ClientStore

/-! ## Sample values -/

/-- Encoding of a string: its length, then its characters. -/
def encString (s : String) : Bytes := s.length :: s.toList.map Char.toNat

/-- Encoding of an integer: a sign tag, then a natural number. -/
def encInt : Int → Bytes
  | Int.ofNat n => [0, n]
  | Int.negSucc n => [1, n]

/-- Decoder for `encString`. -/
def decString : Bytes → Option (String × Bytes)
  | [] => none
  | n :: rest =>
    if rest.length < n then none
    else some (String.mk ((rest.take n).map Char.ofNat), rest.drop n)

/-- Decoder for `encInt`. -/
def decInt : Bytes → Option (Int × Bytes)
  | 0 :: n :: rest => some (Int.ofNat n, rest)
  | 1 :: n :: rest => some (Int.negSucc n, rest)
  | _ => none

/-- Encoding of a grant, field after field. -/
def encGrant (t : TokenInfo) : Bytes :=
  encString t.ClientID ++ encString t.UserID ++ encString t.RedirectURI ++ encString t.Scope
    ++ encString t.Code ++ encInt t.CodeCreateAt.unixNano ++ encInt t.CodeExpiresIn
    ++ encString t.Access ++ encInt t.AccessCreateAt.unixNano ++ encInt t.AccessExpiresIn
    ++ encString t.Refresh ++ encInt t.RefreshCreateAt.unixNano ++ encInt t.RefreshExpiresIn

/-- Decoder for `encGrant`. -/
def decGrant (bs : Bytes) : Option TokenInfo := do
  let (clientID, bs) ← decString bs
  let (userID, bs) ← decString bs
  let (redirectURI, bs) ← decString bs
  let (scope, bs) ← decString bs
  let (code, bs) ← decString bs
  let (codeCreateAt, bs) ← decInt bs
  let (codeExpiresIn, bs) ← decInt bs
  let (access, bs) ← decString bs
  let (accessCreateAt, bs) ← decInt bs
  let (accessExpiresIn, bs) ← decInt bs
  let (refresh, bs) ← decString bs
  let (refreshCreateAt, bs) ← decInt bs
  let (refreshExpiresIn, bs) ← decInt bs
  if bs = [] then
    some ⟨clientID, userID, redirectURI, scope, code, ⟨codeCreateAt⟩, codeExpiresIn, access,
      ⟨accessCreateAt⟩, accessExpiresIn, refresh, ⟨refreshCreateAt⟩, refreshExpiresIn⟩
  else none

/-- A serialization format to stand for `encoding/json` in the examples. -/
def sampleCodec : Codec where
  Marshal := fun info => Except.ok (encGrant info)
  Unmarshal := fun data =>
    match decGrant data with
    | some t => Except.ok t
    | none => Except.error (errors.New "invalid character")

/-- Grant for access token `A` and refresh token `R`, both issued at the instant
`t0` with lifetimes of `a` and `r` seconds. -/
def sampleGrantAt (t0 : Int) (a r : Nat) : TokenInfo :=
  ⟨"c1", "u1", "", "all", "", ⟨0⟩, 0, "A", ⟨t0⟩, a * nanosPerSecond, "R", ⟨t0⟩,
    r * nanosPerSecond⟩

/-- Grant for access token `A` and refresh token `R`, both issued at the epoch with
lifetimes of `a` and `r` seconds. -/
def sampleGrant (a r : Nat) : TokenInfo := sampleGrantAt 0 a r

/-- Grant that carries the authorization code `code1` issued at the instant `t0` for
300 seconds, and no token. -/
def sampleCodeGrantAt (t0 : Int) : TokenInfo :=
  ⟨"c1", "u1", "", "all", "code1", ⟨t0⟩, 300 * nanosPerSecond, "", ⟨0⟩, 0, "", ⟨0⟩, 0⟩

/-- Grant that carries the authorization code `code1` issued at the epoch for 300
seconds, and no token. -/
def sampleCodeGrant : TokenInfo := sampleCodeGrantAt 0

/-- Grant for access token `A` issued at the instant `t0` for 3600 seconds, with no
refresh token. -/
def sampleAccessGrantAt (t0 : Int) : TokenInfo :=
  ⟨"c1", "u1", "", "all", "", ⟨0⟩, 0, "A", ⟨t0⟩, 3600 * nanosPerSecond, "", ⟨0⟩, 0⟩

/-- An object id. -/
def sampleID : ObjectID := ⟨[0, 1, 2, 3, 4, 5, 6, 7, 8, 9, 10, 255], rfl⟩

/-- Another object id. -/
def otherID : ObjectID := ⟨[1, 1, 2, 3, 4, 5, 6, 7, 8, 9, 10, 255], rfl⟩

/-- An error of the storage with no label. -/
def connectionRefused : Error := errors.New "connection refused"

/-- An error of the storage with no label. -/
def connectionReset : Error := errors.New "connection reset"

/-- An error of the storage that the driver labels as transient. -/
def writeConflict : Error := ⟨"WriteConflict", [TransientTransactionError], false⟩

/-! ## Store states -/

/-- The ids of a collection are pairwise distinct (`_id` is its primary key). -/
def UniqueIDs {D : Type} (key : D → String) (c : List D) : Prop := (c.map key).Nodup

/-- Store states reachable from the empty store through `Create` and the three
`RemoveBy` calls, under any behaviour of the storage and any serialization. -/
inductive Reachable : DB → Prop where
  | empty : Reachable DB.empty
  | create (json : Codec) (db : DB) (fs : List Fault) (retries : Nat) (id : ObjectID)
      (info : TokenInfo) :
      Reachable db → Reachable (TokenStore.Create json db fs retries id info).1
  | removeByCode (db final : DB) (fs : List Fault) (code : String) (err : Option Error) :
      Reachable db → TokenStore.RemoveByCode db fs code = some (final, err) → Reachable final
  | removeByAccess (db final : DB) (fs : List Fault) (access : String) (err : Option Error) :
      Reachable db → TokenStore.RemoveByAccess db fs access = some (final, err) →
      Reachable final
  | removeByRefresh (db final : DB) (fs : List Fault) (refresh : String) (err : Option Error) :
      Reachable db → TokenStore.RemoveByRefresh db fs refresh = some (final, err) →
      Reachable final

/-- The invariant of the reachable store states: ids are unique in each collection
and no Basic record is keyed by the empty string. -/
def DB.Inv (db : DB) : Prop :=
  UniqueIDs basicData.ID db.basic ∧ UniqueIDs tokenData.ID db.access ∧
    UniqueIDs tokenData.ID db.refresh ∧ ∀ b ∈ db.basic, b.ID ≠ ""

/-- The three collections after a complete access/refresh issuance on `db`: a Basic
record under the surrogate id, an access index record and, for a non-empty refresh
token, a refresh index record. -/
def issued (id : ObjectID) (info : TokenInfo) (data : Bytes) (aexp rexp : Time) (db : DB) : DB :=
  ⟨db.basic ++ [⟨id.Hex, data, rexp⟩], db.access ++ [⟨info.Access, id.Hex, aexp⟩],
    if info.Refresh ≠ "" then db.refresh ++ [⟨info.Refresh, id.Hex, rexp⟩] else db.refresh⟩

/-- The keys of a complete access/refresh issuance are new in `db`. -/
def newKeys (id : ObjectID) (info : TokenInfo) (db : DB) : Prop :=
  db.basic.any (byID basicData.ID id.Hex) = false ∧
  db.access.any (byID tokenData.ID info.Access) = false ∧
  (info.Refresh ≠ "" → db.refresh.any (byID tokenData.ID info.Refresh) = false)

/-- What a run `g` of the transaction loop does on `db`, where `full` is `db` with
the complete issuance and `keys` says that its keys are new in `db`. Started on `db`
it ends on `db` or on `full`, and on `full` when it returns no error; started on
`full` it changes nothing and returns an error; committing `full` it ends on `db` or
on `full`, and on `full` when it returns no error. -/
def TxnSound (db full : DB) (keys : Prop)
    (g : TxnPhase → DB → List Fault → DB × Option Error × List Fault) : Prop :=
  (∀ fs, ((g TxnPhase.start db fs).2.1 = none → (g TxnPhase.start db fs).1 = full ∧ keys) ∧
    ((g TxnPhase.start db fs).1 = db ∨ ((g TxnPhase.start db fs).1 = full ∧ keys))) ∧
  (∀ fs, (g TxnPhase.start full fs).1 = full ∧ (g TxnPhase.start full fs).2.1 ≠ none) ∧
  (keys → ∀ cur fs, cur = db ∨ cur = full →
    ((g (TxnPhase.commit full) cur fs).2.1 = none → (g (TxnPhase.commit full) cur fs).1 = full) ∧
    ((g (TxnPhase.commit full) cur fs).1 = db ∨ (g (TxnPhase.commit full) cur fs).1 = full))

/-- The store after the code issuance of `sampleCodeGrant` and the access/refresh
issuance of `sampleGrant 3600 7200`. -/
def sampleDB : DB :=
  (TokenStore.Create sampleCodec
    (TokenStore.Create sampleCodec DB.empty [] 0 sampleID sampleCodeGrant).1 [] 0 sampleID
    (sampleGrant 3600 7200)).1

/-- The store `sampleDB` after `RemoveByCode` of the surrogate id of its token grant:
the index records of `A` and `R` reference a Basic record that is gone. -/
def sampleDangling : DB :=
  ⟨[⟨"code1", encGrant sampleCodeGrant, ⟨300000000000⟩⟩], sampleDB.access, sampleDB.refresh⟩

/-! ## The driver calls -/

open TokenStore

theorem cHandler_ok {α : Type} (fs : List Fault) (u : α) (handler : List Fault → α)
    (h : StartSession (nextFault fs).1 = none) :
    cHandler fs u handler = handler (nextFault fs).2 := by
  unfold cHandler
  rw [h]

theorem cHandler_fail {α : Type} (fs : List Fault) (u : α) (handler : List Fault → α)
    (h : StartSession (nextFault fs).1 ≠ none) : cHandler fs u handler = u := by
  unfold cHandler
  cases hf : StartSession (nextFault fs).1 with
  | none => exact absurd hf h
  | some e => rfl

/-- An insert that returns no error has appended the document, and the key was new. -/
theorem InsertOne_none {D : Type} (key : D → String) (c : List D) (doc : D) (f : Fault)
    (h : (InsertOne key c doc f).2 = none) :
    (InsertOne key c doc f).1 = c ++ [doc] ∧ c.any (byID key (key doc)) = false := by
  unfold InsertOne at h ⊢
  cases f with
  | ok =>
    by_cases hc : c.any (byID key (key doc)) = true
    · simp [hc] at h
    · simp [hc]
  | fail e => simp at h
  | failApplied e => simp at h
  | unacknowledged => simp at h

/-- An insert into a collection that holds the key returns an error. -/
theorem InsertOne_dup {D : Type} (key : D → String) (c : List D) (doc : D) (f : Fault)
    (h : c.any (byID key (key doc)) = true) :
    ∃ e, (InsertOne key c doc f).2 = some e := by
  unfold InsertOne
  cases f with
  | ok => exact ⟨ErrDuplicateKey, by simp [h]⟩
  | fail e => exact ⟨e, rfl⟩
  | failApplied e => exact ⟨e, rfl⟩
  | unacknowledged => exact ⟨ErrUnacknowledgedWrite, rfl⟩

/-- Whatever the outcome, the collection after an insert is the old one or the old
one with the document appended under a new key. -/
theorem InsertOne_cases {D : Type} (key : D → String) (c : List D) (doc : D) (f : Fault) :
    (InsertOne key c doc f).1 = c ∨
      ((InsertOne key c doc f).1 = c ++ [doc] ∧ c.any (byID key (key doc)) = false) := by
  unfold InsertOne
  by_cases hc : c.any (byID key (key doc)) = true
  · left; cases f <;> simp [hc]
  · cases f with
    | ok => right; simp [hc]
    | fail e => left; rfl
    | failApplied e => right; simp [hc]
    | unacknowledged => right; simp [hc]

/-- Looking up the key of a document appended under a new key finds that document. -/
theorem find_append_new {D : Type} (key : D → String) (c : List D) (doc : D)
    (h : c.any (byID key (key doc)) = false) :
    (c ++ [doc]).find? (byID key (key doc)) = some doc := by
  have hn : c.find? (byID key (key doc)) = none := by
    rw [List.find?_eq_none]
    intro x hx hp
    have : c.any (byID key (key doc)) = true := List.any_eq_true.mpr ⟨x, hx, hp⟩
    rw [h] at this
    exact Bool.noConfusion this
  rw [List.find?_append, hn]
  simp [byID]

/-! ## The transaction of Create -/

/-- A transaction callback that returns no error has appended its two or three
documents, each under a key that was new in its collection. -/
theorem txnBody_none (id : ObjectID) (info : TokenInfo) (data : Bytes) (aexp rexp : Time)
    (db : DB) (fs : List Fault)
    (h : (Create.txnBody id info data aexp rexp db fs).2.1 = none) :
    (Create.txnBody id info data aexp rexp db fs).1 = issued id info data aexp rexp db ∧
    newKeys id info db := by
  unfold issued newKeys
  cases h1 : (InsertOne basicData.ID db.basic ⟨id.Hex, data, rexp⟩ (nextFault fs).1).2 with
  | some e => simp [Create.txnBody, h1] at h
  | none =>
    have i1 := InsertOne_none _ _ _ _ h1
    cases h2 : (InsertOne tokenData.ID db.access ⟨info.Access, id.Hex, aexp⟩
        (nextFault (nextFault fs).2).1).2 with
    | some e => simp [Create.txnBody, h1, h2] at h
    | none =>
      have i2 := InsertOne_none _ _ _ _ h2
      by_cases hr : info.Refresh ≠ ""
      · cases h3 : (InsertOne tokenData.ID db.refresh ⟨info.Refresh, id.Hex, rexp⟩
            (nextFault (nextFault (nextFault fs).2).2).1).2 with
        | some e => simp [Create.txnBody, h1, h2, h3, hr] at h
        | none =>
          have i3 := InsertOne_none _ _ _ _ h3
          refine ⟨?_, i1.2, i2.2, fun _ => i3.2⟩
          simp only [Create.txnBody, h1, h2, h3, if_pos hr, i1.1, i2.1, i3.1]
      · refine ⟨?_, i1.2, i2.2, fun h => absurd h hr⟩
        simp only [Create.txnBody, h1, h2, if_neg hr, i1.1, i2.1]

/-- The transaction callback returns an error as soon as one of its inserts does,
and the error it returns is the error of one of its inserts. -/
theorem txnBody_some (id : ObjectID) (info : TokenInfo) (data : Bytes) (aexp rexp : Time)
    (db : DB) (s0 s1 s2 s3 : List Fault) (f1 f2 f3 : Fault)
    (h1 : nextFault s0 = (f1, s1)) (h2 : nextFault s1 = (f2, s2))
    (h3 : nextFault s2 = (f3, s3))
    (h : (InsertOne basicData.ID db.basic ⟨id.Hex, data, rexp⟩ f1).2 ≠ none ∨
      (InsertOne tokenData.ID db.access ⟨info.Access, id.Hex, aexp⟩ f2).2 ≠ none ∨
      (info.Refresh ≠ "" ∧
        (InsertOne tokenData.ID db.refresh ⟨info.Refresh, id.Hex, rexp⟩ f3).2 ≠ none)) :
    ∃ e, (Create.txnBody id info data aexp rexp db s0).2.1 = some e ∧
      ((InsertOne basicData.ID db.basic ⟨id.Hex, data, rexp⟩ f1).2 = some e ∨
        (InsertOne tokenData.ID db.access ⟨info.Access, id.Hex, aexp⟩ f2).2 = some e ∨
        (InsertOne tokenData.ID db.refresh ⟨info.Refresh, id.Hex, rexp⟩ f3).2 = some e) := by
  cases i1 : (InsertOne basicData.ID db.basic ⟨id.Hex, data, rexp⟩ f1).2 with
  | some e => exact ⟨e, by simp [Create.txnBody, h1, i1], Or.inl rfl⟩
  | none =>
    cases i2 : (InsertOne tokenData.ID db.access ⟨info.Access, id.Hex, aexp⟩ f2).2 with
    | some e => exact ⟨e, by simp [Create.txnBody, h1, h2, i1, i2], Or.inr (Or.inl rfl)⟩
    | none =>
      rcases h with h | h | ⟨hr, h⟩
      · exact absurd i1 h
      · exact absurd i2 h
      · cases i3 : (InsertOne tokenData.ID db.refresh ⟨info.Refresh, id.Hex, rexp⟩ f3).2 with
        | some e =>
          exact ⟨e, by simp [Create.txnBody, h1, h2, h3, i1, i2, i3, hr], Or.inr (Or.inr rfl)⟩
        | none => exact absurd i3 h

/-- The transaction callback returns an error whenever one of its keys is already in
its collection. -/
theorem txnBody_dup (id : ObjectID) (info : TokenInfo) (data : Bytes) (aexp rexp : Time)
    (db : DB) (fs : List Fault)
    (h : db.basic.any (byID basicData.ID id.Hex) = true ∨
      db.access.any (byID tokenData.ID info.Access) = true ∨
      (info.Refresh ≠ "" ∧ db.refresh.any (byID tokenData.ID info.Refresh) = true)) :
    ∃ e, (Create.txnBody id info data aexp rexp db fs).2.1 = some e := by
  have hx := txnBody_some id info data aexp rexp db fs (nextFault fs).2
    (nextFault (nextFault fs).2).2 (nextFault (nextFault (nextFault fs).2).2).2
    (nextFault fs).1 (nextFault (nextFault fs).2).1 (nextFault (nextFault (nextFault fs).2).2).1
    rfl rfl rfl
  have hne : ∀ {D : Type} (key : D → String) (c : List D) (doc : D) (f : Fault),
      c.any (byID key (key doc)) = true → (InsertOne key c doc f).2 ≠ none := by
    intro D key c doc f hd
    obtain ⟨e, he⟩ := InsertOne_dup key c doc f hd
    rw [he]
    exact Option.some_ne_none e
  obtain ⟨e, he, _⟩ := hx (by
    rcases h with h | h | ⟨hr, h⟩
    · exact Or.inl (hne basicData.ID db.basic ⟨id.Hex, data, rexp⟩ _ h)
    · exact Or.inr (Or.inl (hne tokenData.ID db.access ⟨info.Access, id.Hex, aexp⟩ _ h))
    · exact Or.inr (Or.inr ⟨hr, hne tokenData.ID db.refresh ⟨info.Refresh, id.Hex, rexp⟩ _ h⟩))
  exact ⟨e, he⟩

/-! ## The loop of WithTransaction -/

/-- One pass of the loop that is about to commit: it returns the staged data and no
error, or returns an error on data that is the staged or the current one, or goes
on (to commit again or to start over) from the staged or the current data. -/
theorem step_commit_cases (cb : DB → List Fault → DB × Option Error × List Fault)
    (retry : Option (TxnPhase → DB → List Fault → DB × Option Error × List Fault))
    (staged cur : DB) (fs : List Fault) :
    (∃ rest, WithTransaction.step cb retry (TxnPhase.commit staged) cur fs
        = (staged, none, rest)) ∨
    ∃ cur1, (cur1 = staged ∨ cur1 = cur) ∧
      ((∃ e rest, WithTransaction.step cb retry (TxnPhase.commit staged) cur fs
          = (cur1, some e, rest)) ∨
        ∃ again rest, retry = some again ∧
          (WithTransaction.step cb retry (TxnPhase.commit staged) cur fs
              = again (TxnPhase.commit staged) cur1 rest ∨
            WithTransaction.step cb retry (TxnPhase.commit staged) cur fs
              = again TxnPhase.start cur1 rest)) := by
  cases hc : (CommitTransaction (nextFault fs).1).2 with
  | none => left; exact ⟨(nextFault fs).2, by simp [WithTransaction.step, hc]⟩
  | some e =>
    right
    refine ⟨if (CommitTransaction (nextFault fs).1).1 then staged else cur, ?_, ?_⟩
    · by_cases hb : (CommitTransaction (nextFault fs).1).1 = true
      · left; simp [hb]
      · right; simp [hb]
    · cases retry with
      | none => left; exact ⟨e, (nextFault fs).2, by simp [WithTransaction.step, hc]⟩
      | some again =>
        by_cases hu : e.HasErrorLabel UnknownTransactionCommitResult = true ∧
            e.maxTimeMSExpired = false
        · right
          exact ⟨again, (nextFault fs).2, rfl, Or.inl (by simp [WithTransaction.step, hc, hu])⟩
        · by_cases ht : e.HasErrorLabel TransientTransactionError = true
          · right
            exact ⟨again, (nextFault fs).2, rfl,
              Or.inr (by simp [WithTransaction.step, hc, hu, ht])⟩
          · left
            exact ⟨e, (nextFault fs).2, by simp [WithTransaction.step, hc, hu, ht]⟩

/-- One pass of the loop that starts a transaction: it returns an error on the
current data, or starts over on the current data after an error of the callback, or
the callback has returned no error and the pass is the one that commits its
writes. -/
theorem step_start_cases (cb : DB → List Fault → DB × Option Error × List Fault)
    (retry : Option (TxnPhase → DB → List Fault → DB × Option Error × List Fault))
    (cur : DB) (fs : List Fault) :
    (∃ e rest, WithTransaction.step cb retry TxnPhase.start cur fs = (cur, some e, rest)) ∨
    (∃ again e rest, retry = some again ∧ (cb cur (nextFault fs).2).2.1 = some e ∧
      WithTransaction.step cb retry TxnPhase.start cur fs = again TxnPhase.start cur rest) ∨
    ((cb cur (nextFault fs).2).2.1 = none ∧
      WithTransaction.step cb retry TxnPhase.start cur fs =
        WithTransaction.step cb retry (TxnPhase.commit (cb cur (nextFault fs).2).1) cur
          (cb cur (nextFault fs).2).2.2) := by
  cases hs : StartTransaction (nextFault fs).1 with
  | some e => left; exact ⟨e, (nextFault fs).2, by simp [WithTransaction.step, hs]⟩
  | none =>
    cases hc : (cb cur (nextFault fs).2).2.1 with
    | none => right; right; exact ⟨rfl, by simp [WithTransaction.step, hs, hc]⟩
    | some e =>
      cases retry with
      | none =>
        left
        exact ⟨e, (cb cur (nextFault fs).2).2.2, by simp [WithTransaction.step, hs, hc]⟩
      | some again =>
        by_cases ht : e.HasErrorLabel TransientTransactionError = true
        · right; left
          exact ⟨again, e, (cb cur (nextFault fs).2).2.2, rfl, rfl,
            by simp [WithTransaction.step, hs, hc, ht]⟩
        · left
          exact ⟨e, (cb cur (nextFault fs).2).2.2, by simp [WithTransaction.step, hs, hc, ht]⟩

/-- The first pass of the loop returns the error of `StartTransaction`. -/
theorem step_startFailed (cb : DB → List Fault → DB × Option Error × List Fault)
    (retry : Option (TxnPhase → DB → List Fault → DB × Option Error × List Fault))
    (cur : DB) (fs : List Fault) (e : Error) (h : StartTransaction (nextFault fs).1 = some e) :
    WithTransaction.step cb retry TxnPhase.start cur fs = (cur, some e, (nextFault fs).2) := by
  simp [WithTransaction.step, h]

/-- The first pass of the loop returns the error of the callback, the data being
unchanged, when the timer has expired or the error is not labelled as transient. -/
theorem step_aborted (cb : DB → List Fault → DB × Option Error × List Fault)
    (retry : Option (TxnPhase → DB → List Fault → DB × Option Error × List Fault))
    (cur : DB) (fs : List Fault) (e : Error) (h : StartTransaction (nextFault fs).1 = none)
    (hc : (cb cur (nextFault fs).2).2.1 = some e)
    (hr : retry = none ∨ e.HasErrorLabel TransientTransactionError = false) :
    WithTransaction.step cb retry TxnPhase.start cur fs
      = (cur, some e, (cb cur (nextFault fs).2).2.2) := by
  cases retry with
  | none => simp [WithTransaction.step, h, hc]
  | some again =>
    rcases hr with hr | hr
    · exact absurd hr (Option.some_ne_none again)
    · simp [WithTransaction.step, h, hc, hr]

theorem loop_zero (cb : DB → List Fault → DB × Option Error × List Fault) :
    WithTransaction.loop cb 0 = WithTransaction.step cb none := rfl

theorem loop_succ (cb : DB → List Fault → DB × Option Error × List Fault) (n : Nat) :
    WithTransaction.loop cb (n + 1)
      = WithTransaction.step cb (some (WithTransaction.loop cb n)) := rfl

/-- One pass of the loop of an access/refresh issuance is sound when the rest of the
loop is. -/
theorem step_sound (id : ObjectID) (info : TokenInfo) (data : Bytes) (aexp rexp : Time)
    (db : DB)
    (retry : Option (TxnPhase → DB → List Fault → DB × Option Error × List Fault))
    (hretry : ∀ again, retry = some again →
      TxnSound db (issued id info data aexp rexp db) (newKeys id info db) again) :
    TxnSound db (issued id info data aexp rexp db) (newKeys id info db)
      (WithTransaction.step (Create.txnBody id info data aexp rexp) retry) := by
  have hcommit : newKeys id info db → ∀ cur fs, cur = db ∨ cur = issued id info data aexp rexp db →
      ((WithTransaction.step (Create.txnBody id info data aexp rexp) retry
          (TxnPhase.commit (issued id info data aexp rexp db)) cur fs).2.1 = none →
        (WithTransaction.step (Create.txnBody id info data aexp rexp) retry
          (TxnPhase.commit (issued id info data aexp rexp db)) cur fs).1
          = issued id info data aexp rexp db) ∧
      ((WithTransaction.step (Create.txnBody id info data aexp rexp) retry
          (TxnPhase.commit (issued id info data aexp rexp db)) cur fs).1 = db ∨
        (WithTransaction.step (Create.txnBody id info data aexp rexp) retry
          (TxnPhase.commit (issued id info data aexp rexp db)) cur fs).1
          = issued id info data aexp rexp db) := by
    intro hk cur fs hcur
    rcases step_commit_cases (Create.txnBody id info data aexp rexp) retry
      (issued id info data aexp rexp db) cur fs with ⟨rest, h⟩ | ⟨cur1, hc1, h⟩
    · rw [h]; exact ⟨fun _ => rfl, Or.inr rfl⟩
    · have hcur1 : cur1 = db ∨ cur1 = issued id info data aexp rexp db := by
        rcases hc1 with h1 | h1
        · exact Or.inr h1
        · rw [h1]; exact hcur
      rcases h with ⟨e, rest, h⟩ | ⟨again, rest, hag, h | h⟩
      · rw [h]
        refine ⟨fun hn => ?_, hcur1⟩
        simp at hn
      · rw [h]
        exact (hretry again hag).2.2 hk cur1 rest hcur1
      · rw [h]
        rcases hcur1 with h1 | h1
        · rw [h1]
          have ha := (hretry again hag).1 rest
          refine ⟨fun hn => (ha.1 hn).1, ?_⟩
          rcases ha.2 with h2 | h2
          · exact Or.inl h2
          · exact Or.inr h2.1
        · rw [h1]
          have hb := (hretry again hag).2.1 rest
          exact ⟨fun hn => absurd hn hb.2, Or.inr hb.1⟩
  refine ⟨?_, ?_, hcommit⟩
  · intro fs
    rcases step_start_cases (Create.txnBody id info data aexp rexp) retry db fs with
      ⟨e, rest, h⟩ | ⟨again, e, rest, hag, _, h⟩ | ⟨hc, h⟩
    · rw [h]
      refine ⟨fun hn => ?_, Or.inl rfl⟩
      simp at hn
    · rw [h]
      exact (hretry again hag).1 rest
    · obtain ⟨hfull, hk⟩ := txnBody_none id info data aexp rexp db _ hc
      rw [h, hfull]
      have hx := hcommit hk db (Create.txnBody id info data aexp rexp db (nextFault fs).2).2.2
        (Or.inl rfl)
      refine ⟨fun hn => ⟨hx.1 hn, hk⟩, ?_⟩
      rcases hx.2 with h2 | h2
      · exact Or.inl h2
      · exact Or.inr ⟨h2, hk⟩
  · intro fs
    have hdup : ∀ gs, ∃ e, (Create.txnBody id info data aexp rexp
        (issued id info data aexp rexp db) gs).2.1 = some e := by
      intro gs
      apply txnBody_dup
      left
      simp [issued, byID]
    rcases step_start_cases (Create.txnBody id info data aexp rexp) retry
      (issued id info data aexp rexp db) fs with
      ⟨e, rest, h⟩ | ⟨again, e, rest, hag, _, h⟩ | ⟨hc, _⟩
    · rw [h]
      exact ⟨rfl, Option.some_ne_none e⟩
    · rw [h]
      exact (hretry again hag).2.1 rest
    · obtain ⟨e, he⟩ := hdup (nextFault fs).2
      rw [he] at hc
      exact absurd hc (Option.some_ne_none e)

/-- Every run of the loop of an access/refresh issuance is sound. -/
theorem loop_sound (id : ObjectID) (info : TokenInfo) (data : Bytes) (aexp rexp : Time)
    (db : DB) (n : Nat) :
    TxnSound db (issued id info data aexp rexp db) (newKeys id info db)
      (WithTransaction.loop (Create.txnBody id info data aexp rexp) n) := by
  induction n with
  | zero =>
    rw [loop_zero]
    exact step_sound id info data aexp rexp db none (fun again h => absurd h (by simp))
  | succ n ih =>
    rw [loop_succ]
    apply step_sound id info data aexp rexp db
    intro again h
    rw [← Option.some.inj h]
    exact ih

/-- A loop whose callback always returns an error on `cur` returns an error and
leaves `cur` as it is. -/
theorem loop_always_fails (cb : DB → List Fault → DB × Option Error × List Fault) (cur : DB)
    (hcb : ∀ gs, ∃ e, (cb cur gs).2.1 = some e) (n : Nat) (fs : List Fault) :
    ∃ e, (WithTransaction.loop cb n TxnPhase.start cur fs).1 = cur ∧
      (WithTransaction.loop cb n TxnPhase.start cur fs).2.1 = some e := by
  induction n generalizing fs with
  | zero =>
    rw [loop_zero]
    rcases step_start_cases cb none cur fs with ⟨e, rest, h⟩ | ⟨again, e, rest, hag, _, _⟩ |
      ⟨hc, _⟩
    · rw [h]; exact ⟨e, rfl, rfl⟩
    · exact absurd hag (by simp)
    · obtain ⟨e, he⟩ := hcb (nextFault fs).2
      rw [he] at hc
      exact absurd hc (Option.some_ne_none e)
  | succ n ih =>
    rw [loop_succ]
    rcases step_start_cases cb (some (WithTransaction.loop cb n)) cur fs with
      ⟨e, rest, h⟩ | ⟨again, e, rest, hag, _, h⟩ | ⟨hc, _⟩
    · rw [h]; exact ⟨e, rfl, rfl⟩
    · rw [h, ← Option.some.inj hag]
      exact ih rest
    · obtain ⟨e, he⟩ := hcb (nextFault fs).2
      rw [he] at hc
      exact absurd hc (Option.some_ne_none e)

/-! ## Create -/

/-- The access/refresh branch of `Create`, once the session has started. -/
theorem Create_txn (json : Codec) (db : DB) (fs : List Fault) (retries : Nat) (id : ObjectID)
    (info : TokenInfo) (data : Bytes) (hcode : info.Code = "")
    (hjson : json.Marshal info = Except.ok data)
    (hsess : StartSession (nextFault fs).1 = none) :
    Create json db fs retries id info =
      ((WithTransaction.loop
          (Create.txnBody id info data (Create.expiry info).1 (Create.expiry info).2)
          retries TxnPhase.start db (nextFault fs).2).1,
        (WithTransaction.loop
          (Create.txnBody id info data (Create.expiry info).1 (Create.expiry info).2)
          retries TxnPhase.start db (nextFault fs).2).2.1) := by
  have hc : ¬ info.Code ≠ "" := fun h => h hcode
  unfold Create
  rw [hjson]
  simp only [if_neg hc]
  rw [cHandler_ok _ _ _ hsess]
  rfl

/-- The code branch of `Create`, once the session has started. -/
theorem Create_code (json : Codec) (db : DB) (fs : List Fault) (retries : Nat)
    (id : ObjectID) (info : TokenInfo) (data : Bytes) (hcode : info.Code ≠ "")
    (hjson : json.Marshal info = Except.ok data)
    (hsess : StartSession (nextFault fs).1 = none) :
    Create json db fs retries id info =
      ({ db with basic := (InsertOne basicData.ID db.basic
          ⟨info.Code, data, info.CodeCreateAt.Add info.CodeExpiresIn⟩
          (nextFault (nextFault fs).2).1).1 },
        (InsertOne basicData.ID db.basic
          ⟨info.Code, data, info.CodeCreateAt.Add info.CodeExpiresIn⟩
          (nextFault (nextFault fs).2).1).2) := by
  unfold Create
  rw [hjson]
  simp only [if_pos hcode]
  rw [cHandler_ok _ _ _ hsess]

/-- When `StartSession` fails, `Create` writes nothing and returns no error. -/
theorem Create_no_session (json : Codec) (db : DB) (fs : List Fault) (retries : Nat)
    (id : ObjectID) (info : TokenInfo) (data : Bytes)
    (hjson : json.Marshal info = Except.ok data)
    (hsess : StartSession (nextFault fs).1 ≠ none) :
    Create json db fs retries id info = (db, none) := by
  unfold Create
  rw [hjson]
  by_cases hcode : info.Code ≠ ""
  · simp only [if_pos hcode]
    rw [cHandler_fail _ _ _ hsess]
  · simp only [if_neg hcode]
    rw [cHandler_fail _ _ _ hsess]

/-- An access/refresh issuance whose session started and which returns no error has
written the complete issuance, under keys that were new. -/
theorem Create_txn_none (json : Codec) (db final : DB) (fs : List Fault) (retries : Nat)
    (id : ObjectID) (info : TokenInfo) (data : Bytes) (hcode : info.Code = "")
    (hjson : json.Marshal info = Except.ok data)
    (hsess : StartSession (nextFault fs).1 = none)
    (hok : Create json db fs retries id info = (final, none)) :
    final = issued id info data (Create.expiry info).1 (Create.expiry info).2 db ∧
    newKeys id info db := by
  rw [Create_txn json db fs retries id info data hcode hjson hsess] at hok
  have h1 := congrArg Prod.fst hok
  have h2 := congrArg Prod.snd hok
  simp only at h1 h2
  have hs := (loop_sound id info data (Create.expiry info).1 (Create.expiry info).2 db
    retries).1 (nextFault fs).2
  rw [← h1]
  exact hs.1 h2

/-- Whatever the storage does, an access/refresh issuance leaves the store as it was
or with the complete issuance, under keys that were new. -/
theorem Create_txn_cases (json : Codec) (db : DB) (fs : List Fault) (retries : Nat)
    (id : ObjectID) (info : TokenInfo) (data : Bytes) (hcode : info.Code = "")
    (hjson : json.Marshal info = Except.ok data) :
    (Create json db fs retries id info).1 = db ∨
    ((Create json db fs retries id info).1
        = issued id info data (Create.expiry info).1 (Create.expiry info).2 db ∧
      newKeys id info db) := by
  by_cases hsess : StartSession (nextFault fs).1 = none
  · rw [Create_txn json db fs retries id info data hcode hjson hsess]
    exact ((loop_sound id info data (Create.expiry info).1 (Create.expiry info).2 db
      retries).1 (nextFault fs).2).2
  · rw [Create_no_session json db fs retries id info data hjson hsess]
    exact Or.inl rfl

/-! ## Lookups -/

/-- With no storage failure `getData` decodes the Basic record found under the id. -/
theorem getData_found (json : Codec) (db : DB) (k : String) (d : basicData) (g : TokenInfo)
    (hd : db.basic.find? (byID basicData.ID k) = some d)
    (hg : json.Unmarshal d.Data = Except.ok g) :
    (getData json db [] k).1 = (some g, none) := by
  simp [getData, cHandler, nextFault, StartSession, FindOne, hd, hg]

/-- With no storage failure `getData` of an id that has no Basic record is empty. -/
theorem getData_absent (json : Codec) (db : DB) (k : String)
    (hd : db.basic.find? (byID basicData.ID k) = none) :
    (getData json db [] k).1 = (none, none) := by
  simp [getData, cHandler, nextFault, StartSession, FindOne, hd]

/-- Whatever the storage does, a grant returned by `getData` comes from a Basic
record found under the id. -/
theorem getData_some (json : Codec) (db : DB) (fs : List Fault) (k : String) (g : TokenInfo)
    (h : (getData json db fs k).1.1 = some g) :
    ∃ d, db.basic.find? (byID basicData.ID k) = some d := by
  cases hd : db.basic.find? (byID basicData.ID k) with
  | some d => exact ⟨d, rfl⟩
  | none =>
    exfalso
    unfold getData cHandler FindOne at h
    cases h0 : StartSession (nextFault fs).1 with
    | some e => simp [h0] at h
    | none =>
      cases h1 : (nextFault (nextFault fs).2).1 with
      | ok => simp [h0, h1, hd] at h
      | unacknowledged => simp [h0, h1, hd] at h
      | fail e => by_cases he : e = ErrNoDocuments <;> simp [h0, h1, he] at h
      | failApplied e => by_cases he : e = ErrNoDocuments <;> simp [h0, h1, he] at h

/-- With no storage failure `getBasicID` returns the basic-id of the index record
found under the token. -/
theorem getBasicID_found (c : List tokenData) (t : String) (d : tokenData)
    (hd : c.find? (byID tokenData.ID t) = some d) :
    getBasicID c [] t = ((d.BasicID, none), []) := by
  simp [getBasicID, cHandler, nextFault, StartSession, FindOne, hd]

/-- With no storage failure `getBasicID` of a token that has no index record
returns the empty id and no error. -/
theorem getBasicID_absent (c : List tokenData) (t : String)
    (hd : c.find? (byID tokenData.ID t) = none) :
    getBasicID c [] t = (("", none), []) := by
  simp [getBasicID, cHandler, nextFault, StartSession, FindOne, hd]

/-- Whatever the storage does, `getBasicID` returns the empty id or the basic-id of
the index record found under the token. -/
theorem getBasicID_cases (c : List tokenData) (fs : List Fault) (t : String) :
    (getBasicID c fs t).1.1 = "" ∨
      ∃ d, c.find? (byID tokenData.ID t) = some d ∧ (getBasicID c fs t).1.1 = d.BasicID := by
  unfold getBasicID cHandler FindOne
  cases h0 : StartSession (nextFault fs).1 with
  | some e => left; simp
  | none =>
    cases hd : c.find? (byID tokenData.ID t) with
    | none =>
      left
      cases h1 : (nextFault (nextFault fs).2).1 with
      | ok => simp [h1]
      | unacknowledged => simp [h1]
      | fail e => by_cases he : e = ErrNoDocuments <;> simp [h1, he]
      | failApplied e => by_cases he : e = ErrNoDocuments <;> simp [h1, he]
    | some d =>
      cases h1 : (nextFault (nextFault fs).2).1 with
      | ok => right; exact ⟨d, rfl, by simp [h1]⟩
      | unacknowledged => right; exact ⟨d, rfl, by simp [h1]⟩
      | fail e => left; by_cases he : e = ErrNoDocuments <;> simp [h1, he]
      | failApplied e => left; by_cases he : e = ErrNoDocuments <;> simp [h1, he]

/-! ## Expiry of the records written by Create -/

/-- C1, at the input of the second scenario: for the grant with access token `A`
(lifetime 7200 s) and refresh token `R` (lifetime 3600 s), both issued at the epoch,
`Create` returns no error and writes the access index record with expires-at
7200 s, which is later than the 3600 s it writes to the refresh index record and to
the Basic record; and whatever the common issue time `t0`, the pair of expiries
computed for these lifetimes is `(t0 + 7200 s, t0 + 3600 s)`: the seconds within the
minute of the two instants are equal, so the cap is not applied. -/
theorem C1_access_outlives_refresh :
    Create sampleCodec DB.empty [] 0 sampleID (sampleGrant 7200 3600) =
      (⟨[⟨"000102030405060708090aff", encGrant (sampleGrant 7200 3600), ⟨3600000000000⟩⟩],
        [⟨"A", "000102030405060708090aff", ⟨7200000000000⟩⟩],
        [⟨"R", "000102030405060708090aff", ⟨3600000000000⟩⟩]⟩, none) ∧
    ¬ ((7200000000000 : Int) ≤ 3600000000000) ∧
    ∀ t0 : Int, Create.expiry (sampleGrantAt t0 7200 3600) =
      (⟨t0 + 7200000000000⟩, ⟨t0 + 3600000000000⟩) := by
  refine ⟨by decide, by decide, ?_⟩
  intro t0
  have hsec : ¬ ((t0 + 7200000000000) / 1000000000 % 60 >
      (t0 + 3600000000000) / 1000000000 % 60) := by omega
  have hr : (sampleGrantAt t0 7200 3600).Refresh ≠ "" := by
    show ("R" : String) ≠ ""
    decide
  unfold Create.expiry
  simp only [if_pos hr]
  simp only [sampleGrantAt, Time.Add, Time.Second, nanosPerSecond, Nat.cast_ofNat]
  norm_num
  omega

/-- C3, at a failing input: for the grant with access token `A` (lifetime 59 s) and
refresh token `R` (lifetime 60 s), both issued at the epoch, the access expiry is
not later than the refresh expiry, yet `Create` writes the access index record with
expires-at 60 s and not 59 s, because second 59 of a minute is greater than second 0
of the next. -/
theorem C3_access_expiry_moved :
    Create sampleCodec DB.empty [] 0 sampleID (sampleGrant 59 60) =
      (⟨[⟨"000102030405060708090aff", encGrant (sampleGrant 59 60), ⟨60000000000⟩⟩],
        [⟨"A", "000102030405060708090aff", ⟨60000000000⟩⟩],
        [⟨"R", "000102030405060708090aff", ⟨60000000000⟩⟩]⟩, none) ∧
    (sampleGrant 59 60).AccessCreateAt.Add (sampleGrant 59 60).AccessExpiresIn = ⟨59000000000⟩ ∧
    (sampleGrant 59 60).RefreshCreateAt.Add (sampleGrant 59 60).RefreshExpiresIn
      = ⟨60000000000⟩ := by
  decide

/-- The pair computed by `Create` for a grant with a refresh token: the refresh
expiry is the refresh issue time plus its lifetime, and the access expiry is
replaced by it exactly when its second within the minute is the greater one. -/
theorem expiry_refresh (info : TokenInfo) (h : info.Refresh ≠ "") :
    (Create.expiry info).2 = info.RefreshCreateAt.Add info.RefreshExpiresIn ∧
    (Create.expiry info).1 =
      if (info.AccessCreateAt.Add info.AccessExpiresIn).Second >
          (info.RefreshCreateAt.Add info.RefreshExpiresIn).Second
      then info.RefreshCreateAt.Add info.RefreshExpiresIn
      else info.AccessCreateAt.Add info.AccessExpiresIn := by
  unfold Create.expiry
  simp only [if_pos h]
  split <;> exact ⟨rfl, rfl⟩

/-- The pair computed by `Create` for a grant with no refresh token. -/
theorem expiry_no_refresh (info : TokenInfo) (h : info.Refresh = "") :
    Create.expiry info = (⟨info.AccessCreateAt.unixNano + info.AccessExpiresIn⟩,
      ⟨info.AccessCreateAt.unixNano + info.AccessExpiresIn⟩) := by
  unfold Create.expiry
  simp [h, Time.Add]

/-! ## Issuance -/

/-- C9, refuted at a concrete input: with a `StartSession` that fails, `Create` of
the code grant `sampleCodeGrant` returns no error, yet it has inserted no record and
`GetByCode` of the code returns an empty result. -/
theorem C9_counterexample :
    sampleCodeGrant.Code ≠ "" ∧
    Create sampleCodec DB.empty [Fault.fail connectionRefused] 0 sampleID sampleCodeGrant
      = (DB.empty, none) ∧
    GetByCode sampleCodec DB.empty [] sampleCodeGrant.Code = (none, none) := by
  decide

/-- C9, amended: for every grant with a non-empty code, a `Create` whose
`StartSession` succeeded and which returns no error has appended exactly one record,
the Basic record keyed by the code with the serialized grant and expires-at = code
issue time + code lifetime; the access and refresh tables are unchanged, and
`GetByCode` of the code, run with no storage failure, then returns the deserialized
grant with no error. A `Create` whose `StartSession` fails (script `gs`) returns no
error and leaves the three tables as they were. -/
theorem C9_code_issuance (json : Codec) (db final : DB) (fs gs : List Fault) (retries : Nat)
    (id : ObjectID) (info : TokenInfo) (data : Bytes) (hcode : info.Code ≠ "")
    (hjson : json.Marshal info = Except.ok data)
    (hsess : StartSession (nextFault fs).1 = none)
    (hok : Create json db fs retries id info = (final, none))
    (hg : StartSession (nextFault gs).1 ≠ none) :
    final.basic = db.basic ++
      [⟨info.Code, data, ⟨info.CodeCreateAt.unixNano + info.CodeExpiresIn⟩⟩] ∧
    final.access = db.access ∧ final.refresh = db.refresh ∧
    (∀ g, json.Unmarshal data = Except.ok g →
      GetByCode json final [] info.Code = (some g, none)) ∧
    Create json db gs retries id info = (db, none) := by
  refine ⟨?_, ?_, ?_, ?_, Create_no_session json db gs retries id info data hjson hg⟩
  all_goals
    rw [Create_code json db fs retries id info data hcode hjson hsess] at hok
    have h1 := congrArg Prod.fst hok
    have h2 := congrArg Prod.snd hok
    simp only at h1 h2
    have hi := InsertOne_none _ _ _ _ h2
    rw [hi.1] at h1
    subst h1
  · rfl
  · rfl
  · rfl
  · intro g hg
    unfold GetByCode
    exact getData_found json _ info.Code _ g (find_append_new basicData.ID db.basic _ hi.2) hg

/-- C9 amended, at the code grant issued at the instant 1600000000 s on the empty
database: the Basic record expires at 1600000300 s. -/
theorem C9_code_issuance_witness :
    Create sampleCodec DB.empty [] 0 sampleID (sampleCodeGrantAt 1600000000000000000) =
      (⟨[⟨"code1", encGrant (sampleCodeGrantAt 1600000000000000000),
        ⟨1600000300000000000⟩⟩], [], []⟩, none) ∧
    GetByCode sampleCodec
      ⟨[⟨"code1", encGrant (sampleCodeGrantAt 1600000000000000000),
        ⟨1600000300000000000⟩⟩], [], []⟩ [] "code1"
      = (some (sampleCodeGrantAt 1600000000000000000), none) ∧
    Create sampleCodec DB.empty [Fault.fail connectionRefused] 0 sampleID
      (sampleCodeGrantAt 1600000000000000000) = (DB.empty, none) :=
  have h := C9_code_issuance sampleCodec DB.empty
    ⟨[⟨"code1", encGrant (sampleCodeGrantAt 1600000000000000000),
      ⟨1600000300000000000⟩⟩], [], []⟩ [] [Fault.fail connectionRefused] 0 sampleID
    (sampleCodeGrantAt 1600000000000000000) (encGrant (sampleCodeGrantAt 1600000000000000000))
    (by decide) rfl rfl (by decide) (by decide)
  ⟨by decide, h.2.2.2.1 (sampleCodeGrantAt 1600000000000000000) rfl, h.2.2.2.2⟩

/-- C10, refuted at a concrete input: with a `StartSession` that fails, `Create` of
a grant with an access token and no refresh token returns no error, yet it has
written no record. -/
theorem C10_counterexample :
    (sampleAccessGrantAt 0).Code = "" ∧ (sampleAccessGrantAt 0).Refresh = "" ∧
    Create sampleCodec DB.empty [Fault.fail connectionRefused] 0 sampleID
      (sampleAccessGrantAt 0) = (DB.empty, none) := by
  decide

/-- C10, amended: for every grant with an empty code and an empty refresh token, a
`Create` whose `StartSession` succeeded and which returns no error has appended
exactly two records, a Basic record keyed by the surrogate id and an access index
record keyed by the access token that references it, both with expires-at = access
issue time + access lifetime; the refresh index is unchanged. A `Create` whose
`StartSession` fails (script `gs`) returns no error and leaves the three tables as
they were. -/
theorem C10_access_only_issuance (json : Codec) (db final : DB) (fs gs : List Fault)
    (retries : Nat) (id : ObjectID) (info : TokenInfo) (data : Bytes)
    (hcode : info.Code = "") (href : info.Refresh = "")
    (hjson : json.Marshal info = Except.ok data)
    (hsess : StartSession (nextFault fs).1 = none)
    (hok : Create json db fs retries id info = (final, none))
    (hg : StartSession (nextFault gs).1 ≠ none) :
    final.basic = db.basic ++
      [⟨id.Hex, data, ⟨info.AccessCreateAt.unixNano + info.AccessExpiresIn⟩⟩] ∧
    final.access = db.access ++
      [⟨info.Access, id.Hex, ⟨info.AccessCreateAt.unixNano + info.AccessExpiresIn⟩⟩] ∧
    final.refresh = db.refresh ∧
    Create json db gs retries id info = (db, none) := by
  have h := (Create_txn_none json db final fs retries id info data hcode hjson hsess hok).1
  rw [expiry_no_refresh info href] at h
  have hr : ¬ info.Refresh ≠ "" := fun hn => hn href
  unfold issued at h
  rw [if_neg hr] at h
  subst h
  exact ⟨rfl, rfl, rfl, Create_no_session json db gs retries id info data hjson hg⟩

/-- C10 amended, at the grant for `A` issued at the instant 1600000000 s on the empty
database: both records expire at 1600003600 s. -/
theorem C10_access_only_issuance_witness :
    Create sampleCodec DB.empty [] 0 sampleID (sampleAccessGrantAt 1600000000000000000) =
      (⟨[⟨"000102030405060708090aff", encGrant (sampleAccessGrantAt 1600000000000000000),
          ⟨1600003600000000000⟩⟩],
        [⟨"A", "000102030405060708090aff", ⟨1600003600000000000⟩⟩], []⟩, none) ∧
    (Create sampleCodec DB.empty [] 0 sampleID
        (sampleAccessGrantAt 1600000000000000000)).1.basic =
      DB.empty.basic ++ [⟨"000102030405060708090aff",
        encGrant (sampleAccessGrantAt 1600000000000000000), ⟨1600003600000000000⟩⟩] ∧
    (Create sampleCodec DB.empty [] 0 sampleID
        (sampleAccessGrantAt 1600000000000000000)).1.access =
      DB.empty.access ++ [⟨"A", "000102030405060708090aff", ⟨1600003600000000000⟩⟩] ∧
    (Create sampleCodec DB.empty [] 0 sampleID
        (sampleAccessGrantAt 1600000000000000000)).1.refresh = DB.empty.refresh ∧
    Create sampleCodec DB.empty [Fault.fail connectionRefused] 0 sampleID
      (sampleAccessGrantAt 1600000000000000000) = (DB.empty, none) :=
  ⟨by decide, C10_access_only_issuance sampleCodec DB.empty _ [] [Fault.fail connectionRefused]
    0 sampleID (sampleAccessGrantAt 1600000000000000000)
    (encGrant (sampleAccessGrantAt 1600000000000000000)) rfl rfl rfl rfl rfl (by decide)⟩

/-- C2, refuted at a concrete input: with a `StartSession` that fails, `Create` of
the grant for the tokens `A` and `R` returns no error and writes nothing, and
immediately afterwards `GetByAccess` of `A` and `GetByRefresh` of `R` return an empty
result. -/
theorem C2_counterexample :
    (sampleGrant 3600 7200).Code = "" ∧ (sampleGrant 3600 7200).Refresh ≠ "" ∧
    Create sampleCodec DB.empty [Fault.fail connectionRefused] 0 sampleID
      (sampleGrant 3600 7200) = (DB.empty, none) ∧
    GetByAccess sampleCodec DB.empty [] (sampleGrant 3600 7200).Access = (none, none) ∧
    GetByRefresh sampleCodec DB.empty [] (sampleGrant 3600 7200).Refresh = (none, none) := by
  decide

/-- C2, amended: for every store state and every grant with an empty code, an access
token and a non-empty refresh token, when the `StartSession` of `Create` succeeded
and `Create` returned no error, `GetByAccess` of the access token and `GetByRefresh`
of the refresh token, run with no storage failure, both return no error and the same
grant: the deserialization `g` of the payload that `Create` serialized (the grant
itself when the serialization round-trips). A `Create` whose `StartSession` fails
(script `gs`) returns no error and leaves the three tables as they were. -/
theorem C2_lookups_after_create (json : Codec) (db final : DB) (fs gs : List Fault)
    (retries : Nat) (id : ObjectID) (info g : TokenInfo) (data : Bytes)
    (hcode : info.Code = "") (href : info.Refresh ≠ "")
    (hjson : json.Marshal info = Except.ok data)
    (hdec : json.Unmarshal data = Except.ok g)
    (hsess : StartSession (nextFault fs).1 = none)
    (hok : Create json db fs retries id info = (final, none))
    (hg : StartSession (nextFault gs).1 ≠ none) :
    GetByAccess json final [] info.Access = (some g, none) ∧
    GetByRefresh json final [] info.Refresh = (some g, none) ∧
    Create json db gs retries id info = (db, none) := by
  have h := Create_txn_none json db final fs retries id info data hcode hjson hsess hok
  have hf := h.1
  unfold issued at hf
  rw [if_pos href] at hf
  obtain ⟨hk1, hk2, hk3⟩ := h.2
  have hb : final.basic.find? (byID basicData.ID id.Hex)
      = some ⟨id.Hex, data, (Create.expiry info).2⟩ := by
    rw [hf]
    exact find_append_new basicData.ID db.basic ⟨id.Hex, data, (Create.expiry info).2⟩ hk1
  have ha : final.access.find? (byID tokenData.ID info.Access)
      = some ⟨info.Access, id.Hex, (Create.expiry info).1⟩ := by
    rw [hf]
    exact find_append_new tokenData.ID db.access ⟨info.Access, id.Hex, (Create.expiry info).1⟩
      hk2
  have hr : final.refresh.find? (byID tokenData.ID info.Refresh)
      = some ⟨info.Refresh, id.Hex, (Create.expiry info).2⟩ := by
    rw [hf]
    exact find_append_new tokenData.ID db.refresh
      ⟨info.Refresh, id.Hex, (Create.expiry info).2⟩ (hk3 href)
  have hgd := getData_found json final id.Hex _ g hb hdec
  refine ⟨?_, ?_, Create_no_session json db gs retries id info data hjson hg⟩
  · unfold GetByAccess
    rw [getBasicID_found _ _ _ ha]
    simpa using hgd
  · unfold GetByRefresh
    rw [getBasicID_found _ _ _ hr]
    simpa using hgd

/-- C2 amended, at the grant with lifetimes 3600 s and 7200 s on the empty database,
with the round-tripping `sampleCodec`. -/
theorem C2_lookups_after_create_witness :
    (Create sampleCodec DB.empty [] 0 sampleID (sampleGrant 3600 7200)).2 = none ∧
    sampleCodec.Unmarshal (encGrant (sampleGrant 3600 7200))
      = Except.ok (sampleGrant 3600 7200) ∧
    GetByAccess sampleCodec
      (Create sampleCodec DB.empty [] 0 sampleID (sampleGrant 3600 7200)).1
      [] "A" = (some (sampleGrant 3600 7200), none) ∧
    GetByRefresh sampleCodec
      (Create sampleCodec DB.empty [] 0 sampleID (sampleGrant 3600 7200)).1
      [] "R" = (some (sampleGrant 3600 7200), none) ∧
    Create sampleCodec DB.empty [Fault.fail connectionRefused] 0 sampleID
      (sampleGrant 3600 7200) = (DB.empty, none) :=
  ⟨by decide, rfl,
    C2_lookups_after_create sampleCodec DB.empty _ [] [Fault.fail connectionRefused] 0 sampleID
      (sampleGrant 3600 7200) (sampleGrant 3600 7200) (encGrant (sampleGrant 3600 7200)) rfl
      (by decide) rfl rfl rfl rfl (by decide)⟩

/-! ## Atomicity of the access/refresh issuance -/

/-- Once the session and the first transaction have started: when an insert of the
first run of the callback returns an error, and the timer has expired or no insert
error is labelled as transient, `Create` returns a non-nil error and leaves the
three tables as they were. -/
theorem Create_insert_error (json : Codec) (db : DB) (fs s0 s1 s2 s3 s4 : List Fault)
    (f0 t0 f1 f2 f3 : Fault) (retries : Nat) (id : ObjectID) (info : TokenInfo) (data : Bytes)
    (hcode : info.Code = "") (hjson : json.Marshal info = Except.ok data)
    (h0 : nextFault fs = (f0, s0)) (hf0 : StartSession f0 = none)
    (h1 : nextFault s0 = (t0, s1)) (ht0 : StartTransaction t0 = none)
    (h2 : nextFault s1 = (f1, s2)) (h3 : nextFault s2 = (f2, s3))
    (h4 : nextFault s3 = (f3, s4))
    (hfail : (InsertOne basicData.ID db.basic ⟨id.Hex, data, (Create.expiry info).2⟩ f1).2
        ≠ none ∨
      (InsertOne tokenData.ID db.access ⟨info.Access, id.Hex, (Create.expiry info).1⟩ f2).2
        ≠ none ∨
      (info.Refresh ≠ "" ∧
        (InsertOne tokenData.ID db.refresh ⟨info.Refresh, id.Hex, (Create.expiry info).2⟩ f3).2
          ≠ none))
    (hplain : retries = 0 ∨ ∀ e,
        ((InsertOne basicData.ID db.basic ⟨id.Hex, data, (Create.expiry info).2⟩ f1).2
            = some e ∨
          (InsertOne tokenData.ID db.access ⟨info.Access, id.Hex, (Create.expiry info).1⟩ f2).2
            = some e ∨
          (InsertOne tokenData.ID db.refresh
            ⟨info.Refresh, id.Hex, (Create.expiry info).2⟩ f3).2 = some e) →
        e.HasErrorLabel TransientTransactionError = false) :
    ∃ e, Create json db fs retries id info = (db, some e) := by
  have hsess : StartSession (nextFault fs).1 = none := by rw [h0]; exact hf0
  have hs0 : (nextFault fs).2 = s0 := by rw [h0]
  have hst : StartTransaction (nextFault s0).1 = none := by rw [h1]; exact ht0
  have hs1 : (nextFault s0).2 = s1 := by rw [h1]
  obtain ⟨e, he, hmem⟩ := txnBody_some id info data _ _ db s1 s2 s3 s4 f1 f2 f3 h2 h3 h4 hfail
  refine ⟨e, ?_⟩
  rw [Create_txn json db fs retries id info data hcode hjson hsess, hs0]
  have hcb : ((Create.txnBody id info data (Create.expiry info).1 (Create.expiry info).2)
      db (nextFault s0).2).2.1 = some e := by rw [hs1]; exact he
  cases retries with
  | zero =>
    rw [loop_zero, step_aborted _ none db s0 e hst hcb (Or.inl rfl)]
  | succ n =>
    have hne : e.HasErrorLabel TransientTransactionError = false := by
      rcases hplain with h | h
      · exact absurd h (Nat.succ_ne_zero n)
      · exact h e hmem
    rw [loop_succ, step_aborted _ _ db s0 e hst hcb (Or.inr hne)]

/-- Once the session has started, `Create` returns the error of a `StartTransaction`
that fails and leaves the three tables as they were. -/
theorem Create_start_error (json : Codec) (db : DB) (fs s0 s1 : List Fault) (f0 t0 : Fault)
    (retries : Nat) (id : ObjectID) (info : TokenInfo) (data : Bytes) (e : Error)
    (hcode : info.Code = "") (hjson : json.Marshal info = Except.ok data)
    (h0 : nextFault fs = (f0, s0)) (hf0 : StartSession f0 = none)
    (h1 : nextFault s0 = (t0, s1)) (ht0 : StartTransaction t0 = some e) :
    Create json db fs retries id info = (db, some e) := by
  have hsess : StartSession (nextFault fs).1 = none := by rw [h0]; exact hf0
  have hs0 : (nextFault fs).2 = s0 := by rw [h0]
  have hst : StartTransaction (nextFault s0).1 = some e := by rw [h1]; exact ht0
  rw [Create_txn json db fs retries id info data hcode hjson hsess, hs0]
  cases retries with
  | zero => rw [loop_zero, step_startFailed _ _ db s0 e hst]
  | succ n => rw [loop_succ, step_startFailed _ _ db s0 e hst]

/-- C4, refuted at a concrete input: the Basic insert of the first run of the
transaction fails with an error that the driver labels as transient, the driver runs
the callback again, and `Create` returns no error with the three records written. -/
theorem C4_counterexample :
    (InsertOne basicData.ID DB.empty.basic
      ⟨sampleID.Hex, encGrant (sampleGrant 3600 7200), (Create.expiry (sampleGrant 3600 7200)).2⟩
      (Fault.fail writeConflict)).2 = some writeConflict ∧
    Create sampleCodec DB.empty [Fault.ok, Fault.ok, Fault.fail writeConflict] 1 sampleID
      (sampleGrant 3600 7200) =
      (⟨[⟨"000102030405060708090aff", encGrant (sampleGrant 3600 7200), ⟨7200000000000⟩⟩],
        [⟨"A", "000102030405060708090aff", ⟨3600000000000⟩⟩],
        [⟨"R", "000102030405060708090aff", ⟨7200000000000⟩⟩]⟩, none) := by
  decide

/-- C4, amended. `Create` for an access/refresh issuance (empty code) is
all-or-nothing: whatever the storage does, the three tables afterwards are exactly
as before the call or exactly as before plus the complete issuance. When its session
and its first transaction have started, `f1`, `f2`, `f3` being the outcomes of the
three inserts of the first run: if the Basic insert, the access-index insert or (for
a non-empty refresh token) the refresh-index insert returns an error, and the timer
of the transaction has expired or no insert error is labelled
`TransientTransactionError`, then `Create` returns a non-nil error and the three
tables are exactly as before the call. When the access token, or the non-empty
refresh token, is already a key of its index table, every `Create` whose session
started returns a non-nil error and leaves the tables as before. -/
theorem C4_create_all_or_nothing (json : Codec) (db : DB) (fs s0 s1 s2 s3 s4 : List Fault)
    (f0 t0 f1 f2 f3 : Fault) (retries : Nat) (id : ObjectID) (info : TokenInfo) (data : Bytes)
    (hcode : info.Code = "") (hjson : json.Marshal info = Except.ok data)
    (h0 : nextFault fs = (f0, s0)) (hf0 : StartSession f0 = none)
    (h1 : nextFault s0 = (t0, s1)) (ht0 : StartTransaction t0 = none)
    (h2 : nextFault s1 = (f1, s2)) (h3 : nextFault s2 = (f2, s3))
    (h4 : nextFault s3 = (f3, s4)) :
    (((InsertOne basicData.ID db.basic ⟨id.Hex, data, (Create.expiry info).2⟩ f1).2 ≠ none ∨
      (InsertOne tokenData.ID db.access ⟨info.Access, id.Hex, (Create.expiry info).1⟩ f2).2
        ≠ none ∨
      (info.Refresh ≠ "" ∧
        (InsertOne tokenData.ID db.refresh ⟨info.Refresh, id.Hex, (Create.expiry info).2⟩ f3).2
          ≠ none)) →
      (retries = 0 ∨ ∀ e,
        ((InsertOne basicData.ID db.basic ⟨id.Hex, data, (Create.expiry info).2⟩ f1).2
            = some e ∨
          (InsertOne tokenData.ID db.access ⟨info.Access, id.Hex, (Create.expiry info).1⟩ f2).2
            = some e ∨
          (InsertOne tokenData.ID db.refresh
            ⟨info.Refresh, id.Hex, (Create.expiry info).2⟩ f3).2 = some e) →
        e.HasErrorLabel TransientTransactionError = false) →
      ∃ e, Create json db fs retries id info = (db, some e)) ∧
    (∀ gs n, StartSession (nextFault gs).1 = none → (∃ d ∈ db.access, d.ID = info.Access) →
      ∃ e, Create json db gs n id info = (db, some e)) ∧
    (∀ gs n, StartSession (nextFault gs).1 = none → info.Refresh ≠ "" →
      (∃ d ∈ db.refresh, d.ID = info.Refresh) →
      ∃ e, Create json db gs n id info = (db, some e)) ∧
    (∀ gs n, (Create json db gs n id info).1 = db ∨
      (Create json db gs n id info).1
        = issued id info data (Create.expiry info).1 (Create.expiry info).2 db) := by
  have always : ∀ gs n, StartSession (nextFault gs).1 = none →
      (∀ hs, ∃ e, (Create.txnBody id info data (Create.expiry info).1 (Create.expiry info).2
        db hs).2.1 = some e) → ∃ e, Create json db gs n id info = (db, some e) := by
    intro gs n hg hcb
    obtain ⟨e, hd, he⟩ := loop_always_fails _ db hcb n (nextFault gs).2
    refine ⟨e, ?_⟩
    rw [Create_txn json db gs n id info data hcode hjson hg, hd, he]
  refine ⟨?_, ?_, ?_, ?_⟩
  · intro hfail hplain
    exact Create_insert_error json db fs s0 s1 s2 s3 s4 f0 t0 f1 f2 f3 retries id info data
      hcode hjson h0 hf0 h1 ht0 h2 h3 h4 hfail hplain
  · rintro gs n hg ⟨d, hd, hk⟩
    apply always gs n hg
    intro hs
    apply txnBody_dup
    right; left
    exact List.any_eq_true.mpr ⟨d, hd, by simp [byID, hk]⟩
  · rintro gs n hg hr ⟨d, hd, hk⟩
    apply always gs n hg
    intro hs
    apply txnBody_dup
    right; right
    exact ⟨hr, List.any_eq_true.mpr ⟨d, hd, by simp [byID, hk]⟩⟩
  · intro gs n
    rcases Create_txn_cases json db gs n id info data hcode hjson with h | h
    · exact Or.inl h
    · exact Or.inr h.1

/-- C4 amended, at concrete inputs. On the database left by a first issuance of the
tokens `A` and `R`, a second issuance of the same tokens under another surrogate id
fails on the access-index insert with the duplicate-key error, which carries no
label, and leaves the three tables as they were. On the empty store, with a Basic
insert that fails with `connection reset`, which carries no label, `Create` returns
an error and writes nothing, although the timer has not expired. -/
theorem C4_create_all_or_nothing_witness :
    (∃ d ∈ (Create sampleCodec DB.empty [] 0 sampleID (sampleGrant 3600 7200)).1.access,
      d.ID = (sampleGrant 3600 7200).Access) ∧
    (∃ e, Create sampleCodec
        (Create sampleCodec DB.empty [] 0 sampleID (sampleGrant 3600 7200)).1
        [] 2 otherID (sampleGrant 3600 7200) =
      ((Create sampleCodec DB.empty [] 0 sampleID (sampleGrant 3600 7200)).1, some e)) ∧
    Create sampleCodec (Create sampleCodec DB.empty [] 0 sampleID (sampleGrant 3600 7200)).1
        [] 2 otherID (sampleGrant 3600 7200) =
      ((Create sampleCodec DB.empty [] 0 sampleID (sampleGrant 3600 7200)).1,
        some ErrDuplicateKey) ∧
    (∃ e, Create sampleCodec DB.empty [Fault.ok, Fault.ok, Fault.fail connectionReset] 2
      sampleID (sampleGrant 3600 7200) = (DB.empty, some e)) ∧
    Create sampleCodec DB.empty [Fault.ok, Fault.ok, Fault.fail connectionReset] 2
      sampleID (sampleGrant 3600 7200) = (DB.empty, some connectionReset) :=
  have hd : ∃ d ∈ (Create sampleCodec DB.empty [] 0 sampleID (sampleGrant 3600 7200)).1.access,
      d.ID = (sampleGrant 3600 7200).Access :=
    ⟨⟨"A", "000102030405060708090aff", ⟨3600000000000⟩⟩, by decide, by decide⟩
  have h1 := C4_create_all_or_nothing sampleCodec
    (Create sampleCodec DB.empty [] 0 sampleID (sampleGrant 3600 7200)).1 [] [] [] [] [] []
    Fault.ok Fault.ok Fault.ok Fault.ok Fault.ok 2 otherID
    (sampleGrant 3600 7200) (encGrant (sampleGrant 3600 7200)) rfl rfl rfl rfl rfl rfl rfl rfl
    rfl
  have h2 := C4_create_all_or_nothing sampleCodec DB.empty
    [Fault.ok, Fault.ok, Fault.fail connectionReset] [Fault.ok, Fault.fail connectionReset]
    [Fault.fail connectionReset] [] [] [] Fault.ok Fault.ok (Fault.fail connectionReset)
    Fault.ok Fault.ok 2 sampleID (sampleGrant 3600 7200) (encGrant (sampleGrant 3600 7200))
    rfl rfl rfl rfl rfl rfl rfl rfl rfl
  ⟨hd, h1.2.1 [] 2 rfl hd, by decide,
    h2.1 (Or.inl (by decide)) (Or.inr (by
      intro e h
      have hb : (InsertOne basicData.ID DB.empty.basic
          ⟨sampleID.Hex, encGrant (sampleGrant 3600 7200),
            (Create.expiry (sampleGrant 3600 7200)).2⟩ (Fault.fail connectionReset)).2
          = some connectionReset := rfl
      have ha : (InsertOne tokenData.ID DB.empty.access
          ⟨(sampleGrant 3600 7200).Access, sampleID.Hex,
            (Create.expiry (sampleGrant 3600 7200)).1⟩ Fault.ok).2 = none := by decide
      have hr : (InsertOne tokenData.ID DB.empty.refresh
          ⟨(sampleGrant 3600 7200).Refresh, sampleID.Hex,
            (Create.expiry (sampleGrant 3600 7200)).2⟩ Fault.ok).2 = none := by decide
      rw [hb, ha, hr] at h
      rcases h with h | h | h
      · rw [← Option.some.inj h]
        decide
      · exact absurd h (by simp)
      · exact absurd h (by simp))),
    by decide⟩

/-! ## Revocation -/

/-- Erasing by id from a collection with unique ids leaves no document under that
id. -/
theorem eraseP_no_key {D : Type} (key : D → String) (c : List D) (k : String)
    (hu : UniqueIDs key c) : ∀ d ∈ c.eraseP (byID key k), ¬ byID key k d = true := by
  unfold UniqueIDs at hu
  induction c with
  | nil => intro d hd; simp at hd
  | cons x xs ih =>
    rw [List.map_cons, List.nodup_cons] at hu
    by_cases hx : byID key k x = true
    · rw [List.eraseP_cons_of_pos hx]
      intro d hd hp
      apply hu.1
      have h1 : key x = k := by simpa [byID] using hx
      have h2 : key d = k := by simpa [byID] using hp
      rw [h1, ← h2]
      exact List.mem_map_of_mem key hd
    · rw [List.eraseP_cons_of_neg hx]
      intro d hd
      rcases List.mem_cons.mp hd with h | h
      · rw [h]; exact hx
      · exact ih hu.2 d h

/-- Whatever the outcome, the collection after a delete is the old one or the old
one with the first document under the id erased. -/
theorem DeleteOne_cases {D : Type} (key : D → String) (c : List D) (k : String) (f : Fault) :
    (DeleteOne key c k f).1 = c ∨ (DeleteOne key c k f).1 = c.eraseP (byID key k) := by
  cases f with
  | ok => right; rfl
  | fail e => left; rfl
  | failApplied e => right; rfl
  | unacknowledged => right; rfl

/-- `GetByAccess` reads the basic and the access collections only. -/
theorem GetByAccess_congr (json : Codec) (db1 db2 : DB) (fs : List Fault) (a : String)
    (hb : db1.basic = db2.basic) (ha : db1.access = db2.access) :
    GetByAccess json db1 fs a = GetByAccess json db2 fs a := by
  unfold GetByAccess getData
  rw [hb, ha]

/-- `GetByRefresh` reads the basic and the refresh collections only. -/
theorem GetByRefresh_congr (json : Codec) (db1 db2 : DB) (fs : List Fault) (r : String)
    (hb : db1.basic = db2.basic) (hr : db1.refresh = db2.refresh) :
    GetByRefresh json db1 fs r = GetByRefresh json db2 fs r := by
  unfold GetByRefresh getData
  rw [hb, hr]

/-- Whatever the storage does, a `RemoveByRefresh` that returns leaves the basic and
access collections unchanged and erases at most the refresh record under the
token. -/
theorem RemoveByRefresh_frame (db final : DB) (fs : List Fault) (r : String)
    (err : Option Error) (h : RemoveByRefresh db fs r = some (final, err)) :
    final.basic = db.basic ∧ final.access = db.access ∧
      (final.refresh = db.refresh ∨
        final.refresh = db.refresh.eraseP (byID tokenData.ID r)) := by
  unfold RemoveByRefresh cHandler at h
  cases h0 : StartSession (nextFault fs).1 with
  | none =>
    simp only [h0, Option.map_eq_some'] at h
    obtain ⟨e, _, he⟩ := h
    have hf := (congrArg Prod.fst he).symm
    simp only at hf
    rw [hf]
    exact ⟨rfl, rfl, DeleteOne_cases _ _ _ _⟩
  | some e =>
    simp only [h0, Option.some.injEq, Prod.mk.injEq] at h
    rw [← h.1]
    exact ⟨rfl, rfl, Or.inl rfl⟩

/-- Whatever the storage does, a `RemoveByAccess` that returns leaves the basic and
refresh collections unchanged and erases at most the access record under the
token. -/
theorem RemoveByAccess_frame (db final : DB) (fs : List Fault) (a : String)
    (err : Option Error) (h : RemoveByAccess db fs a = some (final, err)) :
    final.basic = db.basic ∧ final.refresh = db.refresh ∧
      (final.access = db.access ∨ final.access = db.access.eraseP (byID tokenData.ID a)) := by
  unfold RemoveByAccess cHandler at h
  cases h0 : StartSession (nextFault fs).1 with
  | none =>
    simp only [h0, Option.map_eq_some'] at h
    obtain ⟨e, _, he⟩ := h
    have hf := (congrArg Prod.fst he).symm
    simp only at hf
    rw [hf]
    exact ⟨rfl, rfl, DeleteOne_cases _ _ _ _⟩
  | some e =>
    simp only [h0, Option.some.injEq, Prod.mk.injEq] at h
    rw [← h.1]
    exact ⟨rfl, rfl, Or.inl rfl⟩

/-- Whatever the storage does, a `RemoveByCode` that returns leaves the access and
refresh collections unchanged and erases at most the Basic record under the code. -/
theorem RemoveByCode_frame (db final : DB) (fs : List Fault) (c : String)
    (err : Option Error) (h : RemoveByCode db fs c = some (final, err)) :
    final.access = db.access ∧ final.refresh = db.refresh ∧
      (final.basic = db.basic ∨ final.basic = db.basic.eraseP (byID basicData.ID c)) := by
  unfold RemoveByCode cHandler at h
  cases h0 : StartSession (nextFault fs).1 with
  | none =>
    simp only [h0, Option.map_eq_some'] at h
    obtain ⟨e, _, he⟩ := h
    have hf := (congrArg Prod.fst he).symm
    simp only at hf
    rw [hf]
    exact ⟨rfl, rfl, DeleteOne_cases _ _ _ _⟩
  | some e =>
    simp only [h0, Option.some.injEq, Prod.mk.injEq] at h
    rw [← h.1]
    exact ⟨rfl, rfl, Or.inl rfl⟩

/-- With no storage failure `RemoveByRefresh` returns no error and erases the first
refresh record under the token, if any. -/
theorem RemoveByRefresh_ok (db : DB) (r : String) :
    RemoveByRefresh db [] r =
      some (⟨db.basic, db.access, db.refresh.eraseP (byID tokenData.ID r)⟩, none) := by
  simp [RemoveByRefresh, cHandler, nextFault, StartSession, DeleteOne, removeErr]

/-- With no storage failure `RemoveByAccess` returns no error and erases the first
access record under the token, if any. -/
theorem RemoveByAccess_ok (db : DB) (a : String) :
    RemoveByAccess db [] a =
      some (⟨db.basic, db.access.eraseP (byID tokenData.ID a), db.refresh⟩, none) := by
  simp [RemoveByAccess, cHandler, nextFault, StartSession, DeleteOne, removeErr]

/-- With no storage failure `RemoveByCode` returns no error and erases the first
Basic record under the code, if any. -/
theorem RemoveByCode_ok (db : DB) (c : String) :
    RemoveByCode db [] c =
      some (⟨db.basic.eraseP (byID basicData.ID c), db.access, db.refresh⟩, none) := by
  simp [RemoveByCode, cHandler, nextFault, StartSession, DeleteOne, removeErr]

/-- Erasing by an id that no document carries changes nothing. -/
theorem eraseP_absent {D : Type} (key : D → String) (c : List D) (k : String)
    (h : ∀ d ∈ c, key d ≠ k) : c.eraseP (byID key k) = c := by
  apply List.eraseP_of_forall_not
  intro d hd hp
  exact h d hd (by simpa [byID] using hp)

/-- C6: for every store state and every token `r`: run with no storage failure,
`RemoveByRefresh` returns no error whether or not a refresh record is keyed `r`, and
(ids being unique in the refresh index) a second call returns no error and changes
nothing; whatever the storage does, a `RemoveByRefresh` that returns has removed at
most the record keyed `r` from the refresh index (every record under another key is
kept) and has left the Basic table and the access index unchanged, so that every
`GetByAccess` returns what it returned before; symmetrically for `RemoveByAccess`
with the Basic table, the refresh index and `GetByRefresh`. -/
theorem C6_revocation_frame (json : Codec) (db : DB) (r : String) :
    RemoveByRefresh db [] r =
      some (⟨db.basic, db.access, db.refresh.eraseP (byID tokenData.ID r)⟩, none) ∧
    (UniqueIDs tokenData.ID db.refresh →
      RemoveByRefresh ⟨db.basic, db.access, db.refresh.eraseP (byID tokenData.ID r)⟩ [] r =
        some (⟨db.basic, db.access, db.refresh.eraseP (byID tokenData.ID r)⟩, none)) ∧
    (∀ fs final err, RemoveByRefresh db fs r = some (final, err) →
      final.basic = db.basic ∧ final.access = db.access ∧
      (final.refresh = db.refresh ∨ final.refresh = db.refresh.eraseP (byID tokenData.ID r)) ∧
      (∀ d ∈ db.refresh, d.ID ≠ r → d ∈ final.refresh) ∧
      ∀ gs a, GetByAccess json final gs a = GetByAccess json db gs a) ∧
    RemoveByAccess db [] r =
      some (⟨db.basic, db.access.eraseP (byID tokenData.ID r), db.refresh⟩, none) ∧
    (UniqueIDs tokenData.ID db.access →
      RemoveByAccess ⟨db.basic, db.access.eraseP (byID tokenData.ID r), db.refresh⟩ [] r =
        some (⟨db.basic, db.access.eraseP (byID tokenData.ID r), db.refresh⟩, none)) ∧
    (∀ fs final err, RemoveByAccess db fs r = some (final, err) →
      final.basic = db.basic ∧ final.refresh = db.refresh ∧
      (final.access = db.access ∨ final.access = db.access.eraseP (byID tokenData.ID r)) ∧
      (∀ d ∈ db.access, d.ID ≠ r → d ∈ final.access) ∧
      ∀ gs t, GetByRefresh json final gs t = GetByRefresh json db gs t) := by
  refine ⟨RemoveByRefresh_ok db r, ?_, ?_, RemoveByAccess_ok db r, ?_, ?_⟩
  · intro hr
    rw [RemoveByRefresh_ok]
    simp only
    rw [List.eraseP_of_forall_not (eraseP_no_key tokenData.ID db.refresh r hr)]
  · intro fs final err h
    obtain ⟨hb, hacc, hcases⟩ := RemoveByRefresh_frame db final fs r err h
    refine ⟨hb, hacc, hcases, ?_, fun gs a => GetByAccess_congr json final db gs a hb hacc⟩
    intro d hd hne
    rcases hcases with hc | hc
    · rw [hc]; exact hd
    · rw [hc]
      exact (List.mem_eraseP_of_neg (by simpa [byID] using hne)).mpr hd
  · intro ha
    rw [RemoveByAccess_ok]
    simp only
    rw [List.eraseP_of_forall_not (eraseP_no_key tokenData.ID db.access r ha)]
  · intro fs final err h
    obtain ⟨hb, hrf, hcases⟩ := RemoveByAccess_frame db final fs r err h
    refine ⟨hb, hrf, hcases, ?_, fun gs t => GetByRefresh_congr json final db gs t hb hrf⟩
    intro d hd hne
    rcases hcases with hc | hc
    · rw [hc]; exact hd
    · rw [hc]
      exact (List.mem_eraseP_of_neg (by simpa [byID] using hne)).mpr hd

/-- C6 on `sampleDB`, which holds the refresh token `R` and its sibling access token
`A`: the revocation of `R` succeeds twice, and `GetByAccess` of `A` still returns the
grant afterwards. -/
theorem C6_revocation_frame_witness :
    UniqueIDs tokenData.ID sampleDB.refresh ∧
    RemoveByRefresh sampleDB [] "R" = some (⟨sampleDB.basic, sampleDB.access, []⟩, none) ∧
    RemoveByRefresh ⟨sampleDB.basic, sampleDB.access,
        sampleDB.refresh.eraseP (byID tokenData.ID "R")⟩ [] "R"
      = some (⟨sampleDB.basic, sampleDB.access,
        sampleDB.refresh.eraseP (byID tokenData.ID "R")⟩, none) ∧
    GetByAccess sampleCodec ⟨sampleDB.basic, sampleDB.access, []⟩ [] "A"
      = GetByAccess sampleCodec sampleDB [] "A" ∧
    GetByAccess sampleCodec sampleDB [] "A" = (some (sampleGrant 3600 7200), none) :=
  have hr : UniqueIDs tokenData.ID sampleDB.refresh := by unfold UniqueIDs; decide
  have h := C6_revocation_frame sampleCodec sampleDB "R"
  ⟨hr, by decide, h.2.1 hr,
    (h.2.2.1 [] ⟨sampleDB.basic, sampleDB.access, []⟩ none (by decide)).2.2.2.2 [] "A",
    by decide⟩

/-- C7, refuted at a concrete input: `sampleDB` holds no Basic record keyed `code2`,
and `RemoveByCode` of `code2` returns no error and leaves the store as it was. -/
theorem C7_counterexample :
    (∀ b ∈ sampleDB.basic, b.ID ≠ "code2") ∧
    RemoveByCode sampleDB [] "code2" = some (sampleDB, none) := by
  decide

/-- C7, amended: for every store state and every string `c`, run with no storage
failure, `RemoveByCode` of `c` returns no error and leaves the store unchanged when
no Basic record is keyed `c`, just as `RemoveByAccess` and `RemoveByRefresh` do when
no record of their index is keyed `c`; only `ClientStore.RemoveByID` returns a
non-nil error, `Unknown client`, when no client record matched. -/
theorem C7_remove_absent (db : DB) (clients : List client) (c : String) :
    ((∀ b ∈ db.basic, b.ID ≠ c) → RemoveByCode db [] c = some (db, none)) ∧
    ((∀ d ∈ db.access, d.ID ≠ c) → RemoveByAccess db [] c = some (db, none)) ∧
    ((∀ d ∈ db.refresh, d.ID ≠ c) → RemoveByRefresh db [] c = some (db, none)) ∧
    ((∀ x ∈ clients, x.ID ≠ c) →
      ClientStore.RemoveByID clients Fault.ok c
        = some (clients, some (errors.New "Unknown client"))) := by
  refine ⟨?_, ?_, ?_, ?_⟩
  · intro h
    rw [RemoveByCode_ok, eraseP_absent basicData.ID db.basic c h]
  · intro h
    rw [RemoveByAccess_ok, eraseP_absent tokenData.ID db.access c h]
  · intro h
    rw [RemoveByRefresh_ok, eraseP_absent tokenData.ID db.refresh c h]
  · intro h
    have hany : clients.any (byID client.ID c) = false := by
      rw [List.any_eq_false]
      intro x hx hp
      exact h x hx (by simpa [byID] using hp)
    simp [ClientStore.RemoveByID, DeleteOne, hany, eraseP_absent client.ID clients c h]

/-- C7 amended, on `sampleDB` and a one-client directory, for the absent id
`code2`. -/
theorem C7_remove_absent_witness :
    (∀ b ∈ sampleDB.basic, b.ID ≠ "code2") ∧
    RemoveByCode sampleDB [] "code2" = some (sampleDB, none) ∧
    RemoveByAccess sampleDB [] "code2" = some (sampleDB, none) ∧
    RemoveByRefresh sampleDB [] "code2" = some (sampleDB, none) ∧
    ClientStore.RemoveByID [⟨"c1", "secret", "http://localhost", "u1"⟩] Fault.ok "code2"
      = some ([⟨"c1", "secret", "http://localhost", "u1"⟩],
        some (errors.New "Unknown client")) :=
  have h := C7_remove_absent sampleDB [⟨"c1", "secret", "http://localhost", "u1"⟩] "code2"
  ⟨by decide, h.1 (by decide), h.2.1 (by decide), h.2.2.1 (by decide), h.2.2.2 (by decide)⟩

/-! ## The invariant of the reachable store states -/

/-- The hexadecimal form of an object id is not the empty string. -/
theorem Hex_ne_empty (id : ObjectID) : id.Hex ≠ "" := by
  intro h
  have hl := id.size
  unfold ObjectID.Hex at h
  cases hb : id.bytes with
  | nil => rw [hb] at hl; simp at hl
  | cons b bs =>
    rw [hb] at h
    have := congrArg String.length h
    simp [hexEncode, String.length] at this

/-- An insert keeps the ids of a collection unique. -/
theorem UniqueIDs_InsertOne {D : Type} (key : D → String) (c : List D) (doc : D) (f : Fault)
    (h : UniqueIDs key c) : UniqueIDs key (InsertOne key c doc f).1 := by
  rcases InsertOne_cases key c doc f with hc | ⟨hc, hn⟩
  · rw [hc]; exact h
  · rw [hc]
    unfold UniqueIDs at h ⊢
    rw [List.map_append, List.nodup_append]
    refine ⟨h, by simp, ?_⟩
    rw [List.any_eq_false] at hn
    intro k hk hk2
    rw [List.map_singleton, List.mem_singleton] at hk2
    obtain ⟨d, hd, hdk⟩ := List.mem_map.mp hk
    exact hn d hd (by simp [byID, hdk, hk2])

/-- Erasing a document keeps the ids of a collection unique. -/
theorem UniqueIDs_eraseP {D : Type} (key : D → String) (c : List D) (p : D → Bool)
    (h : UniqueIDs key c) : UniqueIDs key (c.eraseP p) := by
  unfold UniqueIDs at h ⊢
  exact List.Nodup.sublist ((List.eraseP_sublist c).map key) h

/-- A document of the collection after an insert was there before or is the
inserted one. -/
theorem mem_InsertOne {D : Type} (key : D → String) (c : List D) (doc d : D) (f : Fault)
    (h : d ∈ (InsertOne key c doc f).1) : d ∈ c ∨ d = doc := by
  rcases InsertOne_cases key c doc f with hc | ⟨hc, _⟩
  · rw [hc] at h; exact Or.inl h
  · rw [hc] at h
    rcases List.mem_append.mp h with h | h
    · exact Or.inl h
    · exact Or.inr (List.mem_singleton.mp h)

/-- Appending a document under a new key keeps the ids unique. -/
theorem UniqueIDs_append {D : Type} (key : D → String) (c : List D) (doc : D)
    (h : UniqueIDs key c) (hn : c.any (byID key (key doc)) = false) :
    UniqueIDs key (c ++ [doc]) := by
  unfold UniqueIDs at h ⊢
  rw [List.map_append, List.nodup_append]
  refine ⟨h, by simp, ?_⟩
  rw [List.any_eq_false] at hn
  intro k hk hk2
  rw [List.map_singleton, List.mem_singleton] at hk2
  obtain ⟨d, hd, hdk⟩ := List.mem_map.mp hk
  exact hn d hd (by simp [byID, hdk, hk2])

/-- A complete issuance under new keys keeps the invariant. -/
theorem issued_Inv (id : ObjectID) (info : TokenInfo) (data : Bytes) (aexp rexp : Time)
    (db : DB) (h : db.Inv) (hk : newKeys id info db) :
    (issued id info data aexp rexp db).Inv := by
  obtain ⟨hb, ha, hr, hne⟩ := h
  obtain ⟨k1, k2, k3⟩ := hk
  refine ⟨UniqueIDs_append basicData.ID db.basic ⟨id.Hex, data, rexp⟩ hb k1,
    UniqueIDs_append tokenData.ID db.access ⟨info.Access, id.Hex, aexp⟩ ha k2, ?_, ?_⟩
  · unfold issued
    by_cases hrf : info.Refresh ≠ ""
    · simp only [if_pos hrf]
      exact UniqueIDs_append tokenData.ID db.refresh ⟨info.Refresh, id.Hex, rexp⟩ hr (k3 hrf)
    · simp only [if_neg hrf]
      exact hr
  · intro b hbm
    rcases List.mem_append.mp hbm with h | h
    · exact hne b h
    · rw [List.mem_singleton.mp h]
      exact Hex_ne_empty id

/-- `Create` keeps the invariant, whatever the storage does. -/
theorem Create_Inv (json : Codec) (db : DB) (fs : List Fault) (retries : Nat) (id : ObjectID)
    (info : TokenInfo) (h : db.Inv) : (Create json db fs retries id info).1.Inv := by
  cases hj : json.Marshal info with
  | error e => simp only [Create, hj]; exact h
  | ok data =>
    by_cases hcode : info.Code ≠ ""
    · by_cases hs : StartSession (nextFault fs).1 = none
      · rw [Create_code json db fs retries id info data hcode hj hs]
        obtain ⟨hb, ha, hr, hne⟩ := h
        refine ⟨UniqueIDs_InsertOne _ _ _ _ hb, ha, hr, ?_⟩
        intro b hbm
        rcases mem_InsertOne _ _ _ _ _ hbm with hm | hm
        · exact hne b hm
        · rw [hm]; exact hcode
      · rw [Create_no_session json db fs retries id info data hj hs]
        exact h
    · have hc : info.Code = "" := not_not.mp hcode
      rcases Create_txn_cases json db fs retries id info data hc hj with hw | ⟨hw, hk⟩
      · rw [hw]; exact h
      · rw [hw]; exact issued_Inv _ _ _ _ _ _ h hk

/-- Every reachable store state satisfies the invariant. -/
theorem Reachable_Inv (db : DB) (h : Reachable db) : db.Inv := by
  induction h with
  | empty =>
    exact ⟨List.nodup_nil, List.nodup_nil, List.nodup_nil, fun b hb => by simp [DB.empty] at hb⟩
  | create json db fs retries id info _ ih => exact Create_Inv json db fs retries id info ih
  | removeByCode db final fs code err _ hrem ih =>
    obtain ⟨hb, ha, hr, hne⟩ := ih
    obtain ⟨fa, fr, fb⟩ := RemoveByCode_frame db final fs code err hrem
    refine ⟨?_, by rw [fa]; exact ha, by rw [fr]; exact hr, ?_⟩
    · rcases fb with fb | fb
      · rw [fb]; exact hb
      · rw [fb]; exact UniqueIDs_eraseP _ _ _ hb
    · intro b hbm
      rcases fb with fb | fb
      · rw [fb] at hbm; exact hne b hbm
      · rw [fb] at hbm; exact hne b (List.mem_of_mem_eraseP hbm)
  | removeByAccess db final fs access err _ hrem ih =>
    obtain ⟨hb, ha, hr, hne⟩ := ih
    obtain ⟨fb, fr, fa⟩ := RemoveByAccess_frame db final fs access err hrem
    refine ⟨by rw [fb]; exact hb, ?_, by rw [fr]; exact hr, by rw [fb]; exact hne⟩
    rcases fa with fa | fa
    · rw [fa]; exact ha
    · rw [fa]; exact UniqueIDs_eraseP _ _ _ ha
  | removeByRefresh db final fs refresh err _ hrem ih =>
    obtain ⟨hb, ha, hr, hne⟩ := ih
    obtain ⟨fb, fa, fr⟩ := RemoveByRefresh_frame db final fs refresh err hrem
    refine ⟨by rw [fb]; exact hb, by rw [fa]; exact ha, ?_, by rw [fb]; exact hne⟩
    rcases fr with fr | fr
    · rw [fr]; exact hr
    · rw [fr]; exact UniqueIDs_eraseP _ _ _ hr

/-! ## Lookups that find nothing -/

/-- No document is found under an id that no document carries. -/
theorem find_absent {D : Type} (key : D → String) (c : List D) (k : String)
    (h : ∀ d ∈ c, key d ≠ k) : c.find? (byID key k) = none := by
  rw [List.find?_eq_none]
  intro d hd hp
  exact h d hd (by simpa [byID] using hp)

/-- A document found under an id belongs to the collection and carries the id. -/
theorem find_some {D : Type} (key : D → String) (c : List D) (k : String) (d : D)
    (h : c.find? (byID key k) = some d) : d ∈ c ∧ key d = k := by
  refine ⟨List.mem_of_find?_eq_some h, ?_⟩
  have hp := List.find?_some h
  simpa [byID] using hp

/-- In a collection with unique ids, the document found under an id is the one that
carries it. -/
theorem find_unique {D : Type} (key : D → String) (c : List D) (k : String) (d : D)
    (hu : UniqueIDs key c) (hd : d ∈ c) (hk : key d = k) :
    c.find? (byID key k) = some d := by
  unfold UniqueIDs at hu
  induction c with
  | nil => simp at hd
  | cons x xs ih =>
    rw [List.map_cons, List.nodup_cons] at hu
    rcases List.mem_cons.mp hd with h | h
    · subst h
      simp [List.find?_cons, byID, hk]
    · have hx : ¬ byID key k x = true := by
        intro hp
        apply hu.1
        have h1 : key x = k := by simpa [byID] using hp
        rw [h1, ← hk]
        exact List.mem_map_of_mem key h
      rw [List.find?_cons_of_neg _ hx]
      exact ih hu.2 h

/-- The body shared by `GetByAccess` and `GetByRefresh`, on an index with no record
under the token: empty result, no error. -/
theorem viaIndex_absent (json : Codec) (db : DB) (c : List tokenData) (t : String)
    (hne : ∀ b ∈ db.basic, b.ID ≠ "") (h : ∀ d ∈ c, d.ID ≠ t) :
    (if (getBasicID c [] t).1.2 ≠ none ∧ (getBasicID c [] t).1.1 = ""
      then (none, (getBasicID c [] t).1.2)
      else (getData json db (getBasicID c [] t).2 (getBasicID c [] t).1.1).1)
      = ((none : Option TokenInfo), (none : Option Error)) := by
  rw [getBasicID_absent c t (find_absent tokenData.ID c t h)]
  simp only [ne_eq, not_true_eq_false, false_and, if_false]
  exact getData_absent json db "" (find_absent basicData.ID db.basic "" hne)

/-- The body shared by `GetByAccess` and `GetByRefresh`, on an index record whose
basic-id references no Basic record: empty result, no error. -/
theorem viaIndex_dangling (json : Codec) (db : DB) (c : List tokenData) (t : String)
    (d : tokenData) (hu : UniqueIDs tokenData.ID c) (hd : d ∈ c) (hk : d.ID = t)
    (h : ∀ b ∈ db.basic, b.ID ≠ d.BasicID) :
    (if (getBasicID c [] t).1.2 ≠ none ∧ (getBasicID c [] t).1.1 = ""
      then (none, (getBasicID c [] t).1.2)
      else (getData json db (getBasicID c [] t).2 (getBasicID c [] t).1.1).1)
      = ((none : Option TokenInfo), (none : Option Error)) := by
  rw [getBasicID_found c t d (find_unique tokenData.ID c t d hu hd hk)]
  simp only [ne_eq, not_true_eq_false, false_and, if_false]
  exact getData_absent json db d.BasicID (find_absent basicData.ID db.basic d.BasicID h)

/-- The body shared by `GetByAccess` and `GetByRefresh`: a grant is returned only
when the index record and the Basic record it references both exist. -/
theorem viaIndex_some (json : Codec) (db : DB) (c : List tokenData) (fs : List Fault)
    (t : String) (g : TokenInfo) (e : Option Error) (hne : ∀ b ∈ db.basic, b.ID ≠ "")
    (h : (if (getBasicID c fs t).1.2 ≠ none ∧ (getBasicID c fs t).1.1 = ""
      then (none, (getBasicID c fs t).1.2)
      else (getData json db (getBasicID c fs t).2 (getBasicID c fs t).1.1).1) = (some g, e)) :
    ∃ d ∈ c, d.ID = t ∧ ∃ b ∈ db.basic, b.ID = d.BasicID := by
  by_cases hc : (getBasicID c fs t).1.2 ≠ none ∧ (getBasicID c fs t).1.1 = ""
  · rw [if_pos hc] at h
    have := congrArg Prod.fst h
    simp at this
  · rw [if_neg hc] at h
    obtain ⟨b, hb⟩ := getData_some json db _ _ g (congrArg Prod.fst h)
    obtain ⟨hbm, hbk⟩ := find_some basicData.ID db.basic _ b hb
    rcases getBasicID_cases c fs t with h0 | ⟨d, hd, hdk⟩
    · rw [h0] at hbk
      exact absurd hbk (hne b hbm)
    · obtain ⟨hdm, hdt⟩ := find_some tokenData.ID c t d hd
      exact ⟨d, hdm, hdt, b, hbm, by rw [hbk, hdk]⟩

/-- C5: for every store state reachable from the empty store through `Create` and
the `RemoveBy` calls, and every string `t`: run with no storage failure,
`GetByAccess` (resp. `GetByRefresh`) of `t` returns an empty result and no error when
the access (resp. refresh) index has no record keyed `t`, and when it has one whose
basic-id references no Basic record; `GetByCode` of `t` returns an empty result and
no error when no Basic record is keyed `t`; and whatever the storage does, a
non-empty result is returned only when the index record and the Basic record it
references (for `GetByCode`, the Basic record keyed `t`) both exist. -/
theorem C5_not_found (json : Codec) (db : DB) (t : String) (hreach : Reachable db) :
    ((∀ d ∈ db.access, d.ID ≠ t) → GetByAccess json db [] t = (none, none)) ∧
    (∀ d ∈ db.access, d.ID = t → (∀ b ∈ db.basic, b.ID ≠ d.BasicID) →
      GetByAccess json db [] t = (none, none)) ∧
    ((∀ d ∈ db.refresh, d.ID ≠ t) → GetByRefresh json db [] t = (none, none)) ∧
    (∀ d ∈ db.refresh, d.ID = t → (∀ b ∈ db.basic, b.ID ≠ d.BasicID) →
      GetByRefresh json db [] t = (none, none)) ∧
    ((∀ b ∈ db.basic, b.ID ≠ t) → GetByCode json db [] t = (none, none)) ∧
    (∀ fs g e, GetByAccess json db fs t = (some g, e) →
      ∃ d ∈ db.access, d.ID = t ∧ ∃ b ∈ db.basic, b.ID = d.BasicID) ∧
    (∀ fs g e, GetByRefresh json db fs t = (some g, e) →
      ∃ d ∈ db.refresh, d.ID = t ∧ ∃ b ∈ db.basic, b.ID = d.BasicID) ∧
    (∀ fs g e, GetByCode json db fs t = (some g, e) → ∃ b ∈ db.basic, b.ID = t) := by
  obtain ⟨_, ha, hr, hne⟩ := Reachable_Inv db hreach
  refine ⟨?_, ?_, ?_, ?_, ?_, ?_, ?_, ?_⟩
  · intro h
    exact viaIndex_absent json db db.access t hne h
  · intro d hd hk h
    exact viaIndex_dangling json db db.access t d ha hd hk h
  · intro h
    exact viaIndex_absent json db db.refresh t hne h
  · intro d hd hk h
    exact viaIndex_dangling json db db.refresh t d hr hd hk h
  · intro h
    exact getData_absent json db t (find_absent basicData.ID db.basic t h)
  · intro fs g e h
    exact viaIndex_some json db db.access fs t g e hne h
  · intro fs g e h
    exact viaIndex_some json db db.refresh fs t g e hne h
  · intro fs g e h
    obtain ⟨b, hb⟩ := getData_some json db fs t g (congrArg Prod.fst h)
    exact ⟨b, find_some basicData.ID db.basic t b hb⟩

/-- C5 on `sampleDangling`, reached by two issuances and the removal of the Basic
record of the second: the access token `A` has an index record whose Basic record is
gone, and `GetByAccess` of `A` is empty with no error. -/
theorem C5_not_found_witness :
    Reachable sampleDangling ∧
    (∀ d ∈ sampleDangling.access, d.ID = "A" →
      ∀ b ∈ sampleDangling.basic, b.ID ≠ d.BasicID) ∧
    GetByAccess sampleCodec sampleDangling [] "A" = (none, none) :=
  have hreach : Reachable sampleDangling :=
    Reachable.removeByCode sampleDB sampleDangling [] "000102030405060708090aff" none
      (Reachable.create sampleCodec _ [] 0 sampleID (sampleGrant 3600 7200)
        (Reachable.create sampleCodec DB.empty [] 0 sampleID sampleCodeGrant Reachable.empty))
      (by decide)
  ⟨hreach, by decide,
    (C5_not_found sampleCodec sampleDangling "A" hreach).2.1
      ⟨"A", "000102030405060708090aff", ⟨3600000000000⟩⟩ (by decide) rfl (by decide)⟩

/-! ## Storage failures -/

/-- When `StartSession` fails, `getData` returns an empty result and no error. -/
theorem getData_no_session (json : Codec) (db : DB) (gs : List Fault) (k : String)
    (hg : StartSession (nextFault gs).1 ≠ none) :
    getData json db gs k = ((none, none), (nextFault gs).2) := by
  unfold getData
  rw [cHandler_fail _ _ _ hg]

/-- When `StartSession` fails, `getBasicID` returns the empty id and no error. -/
theorem getBasicID_no_session (c : List tokenData) (gs : List Fault) (k : String)
    (hg : StartSession (nextFault gs).1 ≠ none) :
    getBasicID c gs k = (("", none), (nextFault gs).2) := by
  unfold getBasicID
  rw [cHandler_fail _ _ _ hg]

/-- Once the session has started, `getData` returns the error of its find, unless
it is the no-document error. -/
theorem getData_find_error (json : Codec) (db : DB) (fs s0 s1 : List Fault) (f0 f1 : Fault)
    (k : String) (e : Error) (h0 : nextFault fs = (f0, s0)) (hf0 : StartSession f0 = none)
    (h1 : nextFault s0 = (f1, s1)) (he : e ≠ ErrNoDocuments)
    (hf : FindOne basicData.ID db.basic k f1 = Except.error e) :
    getData json db fs k = ((none, some e), s1) := by
  have hs : StartSession (nextFault fs).1 = none := by rw [h0]; exact hf0
  unfold getData
  rw [cHandler_ok _ _ _ hs]
  simp [h0, h1, hf, he]

/-- Once the session has started, `getBasicID` returns the error of its find, unless
it is the no-document error. -/
theorem getBasicID_find_error (c : List tokenData) (fs s0 s1 : List Fault) (f0 f1 : Fault)
    (k : String) (e : Error) (h0 : nextFault fs = (f0, s0)) (hf0 : StartSession f0 = none)
    (h1 : nextFault s0 = (f1, s1)) (he : e ≠ ErrNoDocuments)
    (hf : FindOne tokenData.ID c k f1 = Except.error e) :
    getBasicID c fs k = (("", some e), s1) := by
  have hs : StartSession (nextFault fs).1 = none := by rw [h0]; exact hf0
  unfold getBasicID
  rw [cHandler_ok _ _ _ hs]
  simp [h0, h1, hf, he]

/-- Once the session has started, `getBasicID` returns the basic-id of the record
its find returns. -/
theorem getBasicID_find_ok (c : List tokenData) (fs s0 s1 : List Fault) (f0 f1 : Fault)
    (k : String) (d : tokenData) (h0 : nextFault fs = (f0, s0))
    (hf0 : StartSession f0 = none) (h1 : nextFault s0 = (f1, s1))
    (hf : FindOne tokenData.ID c k f1 = Except.ok d) :
    getBasicID c fs k = ((d.BasicID, none), s1) := by
  have hs : StartSession (nextFault fs).1 = none := by rw [h0]; exact hf0
  unfold getBasicID
  rw [cHandler_ok _ _ _ hs]
  simp [h0, h1, hf]

/-- C8, refuted at concrete inputs. With a `StartSession` that fails, `Create` of a
token grant returns no error and writes nothing, and `GetByCode` of the stored code
`code1` returns an empty result and no error, where it returns the grant when the
session starts. With a Basic insert that fails with an error labelled as transient,
`Create` returns no error (the transaction is run again). With a delete that returns
an error and no result, `RemoveByCode` does not return (it dereferences the nil
result); with an unacknowledged delete, which returns an error together with a
result whose `DeletedCount` is 0, `RemoveByCode` returns no error. -/
theorem C8_counterexample :
    Create sampleCodec DB.empty [Fault.fail connectionRefused] 0 sampleID
      (sampleGrant 3600 7200) = (DB.empty, none) ∧
    GetByCode sampleCodec sampleDB [Fault.fail connectionRefused] "code1" = (none, none) ∧
    GetByCode sampleCodec sampleDB [] "code1" = (some sampleCodeGrant, none) ∧
    (InsertOne basicData.ID DB.empty.basic
      ⟨sampleID.Hex, encGrant (sampleGrant 3600 7200), (Create.expiry (sampleGrant 3600 7200)).2⟩
      (Fault.fail writeConflict)).2 = some writeConflict ∧
    (Create sampleCodec DB.empty [Fault.ok, Fault.ok, Fault.fail writeConflict] 1 sampleID
      (sampleGrant 3600 7200)).2 = none ∧
    (DeleteOne basicData.ID sampleDB.basic "code1" (Fault.fail connectionReset)).2
      = (none, some connectionReset) ∧
    RemoveByCode sampleDB [Fault.ok, Fault.fail connectionReset] "code1" = none ∧
    (DeleteOne basicData.ID sampleDB.basic "code1" Fault.unacknowledged).2
      = (some ⟨0⟩, some ErrUnacknowledgedWrite) ∧
    (RemoveByCode sampleDB [Fault.ok, Fault.unacknowledged] "code1").map Prod.snd
      = some none := by
  decide

/-- C8, amended. Once `StartSession` has succeeded (script `fs`, with `f1` to `f4`
the outcomes of the next storage calls): `Create` of a code grant returns the error
of its insert; `Create` of an access/refresh grant returns the error of
`StartTransaction`, and returns a non-nil error when an insert of the first run of
the transaction returns an error and the timer of the transaction has expired or no
insert error is labelled `TransientTransactionError`; `GetByCode`, `GetByAccess` and
`GetByRefresh` return an empty result and the error of a find that returns an error
other than no-document. When the session cannot be started (script `gs`): `Create`
and the three `RemoveBy` methods return no error and leave the store unchanged,
`GetByCode` returns an empty result and no error, and `GetByAccess` and
`GetByRefresh` carry on as a `GetByCode` of the empty id. -/
theorem C8_storage_failures (json : Codec) (db : DB) (fs s0 s1 s2 s3 s4 gs : List Fault)
    (f0 f1 f2 f3 f4 : Fault) (retries : Nat) (id : ObjectID) (info : TokenInfo) (data : Bytes)
    (k : String) (e : Error) (hjson : json.Marshal info = Except.ok data)
    (h0 : nextFault fs = (f0, s0)) (hf0 : StartSession f0 = none)
    (h1 : nextFault s0 = (f1, s1)) (h2 : nextFault s1 = (f2, s2))
    (h3 : nextFault s2 = (f3, s3)) (h4 : nextFault s3 = (f4, s4))
    (he : e ≠ ErrNoDocuments) (hg : StartSession (nextFault gs).1 ≠ none) :
    (info.Code ≠ "" →
      (InsertOne basicData.ID db.basic
        ⟨info.Code, data, info.CodeCreateAt.Add info.CodeExpiresIn⟩ f1).2 = some e →
      (Create json db fs retries id info).2 = some e) ∧
    (info.Code = "" → StartTransaction f1 = some e →
      Create json db fs retries id info = (db, some e)) ∧
    (info.Code = "" → StartTransaction f1 = none →
      ((InsertOne basicData.ID db.basic ⟨id.Hex, data, (Create.expiry info).2⟩ f2).2 ≠ none ∨
        (InsertOne tokenData.ID db.access ⟨info.Access, id.Hex, (Create.expiry info).1⟩ f3).2
          ≠ none ∨
        (info.Refresh ≠ "" ∧
          (InsertOne tokenData.ID db.refresh
            ⟨info.Refresh, id.Hex, (Create.expiry info).2⟩ f4).2 ≠ none)) →
      (retries = 0 ∨ ∀ e1,
        ((InsertOne basicData.ID db.basic ⟨id.Hex, data, (Create.expiry info).2⟩ f2).2
            = some e1 ∨
          (InsertOne tokenData.ID db.access ⟨info.Access, id.Hex, (Create.expiry info).1⟩ f3).2
            = some e1 ∨
          (InsertOne tokenData.ID db.refresh
            ⟨info.Refresh, id.Hex, (Create.expiry info).2⟩ f4).2 = some e1) →
        e1.HasErrorLabel TransientTransactionError = false) →
      ∃ e1, Create json db fs retries id info = (db, some e1)) ∧
    (FindOne basicData.ID db.basic k f1 = Except.error e →
      GetByCode json db fs k = (none, some e)) ∧
    (FindOne tokenData.ID db.access k f1 = Except.error e →
      GetByAccess json db fs k = (none, some e)) ∧
    (FindOne tokenData.ID db.refresh k f1 = Except.error e →
      GetByRefresh json db fs k = (none, some e)) ∧
    (StartSession f2 = none → ∀ d, FindOne tokenData.ID db.access k f1 = Except.ok d →
      FindOne basicData.ID db.basic d.BasicID f3 = Except.error e →
      GetByAccess json db fs k = (none, some e)) ∧
    (StartSession f2 = none → ∀ d, FindOne tokenData.ID db.refresh k f1 = Except.ok d →
      FindOne basicData.ID db.basic d.BasicID f3 = Except.error e →
      GetByRefresh json db fs k = (none, some e)) ∧
    Create json db gs retries id info = (db, none) ∧
    GetByCode json db gs k = (none, none) ∧
    GetByAccess json db gs k = GetByCode json db (nextFault gs).2 "" ∧
    GetByRefresh json db gs k = GetByCode json db (nextFault gs).2 "" ∧
    RemoveByCode db gs k = some (db, none) ∧
    RemoveByAccess db gs k = some (db, none) ∧
    RemoveByRefresh db gs k = some (db, none) := by
  have hs : StartSession (nextFault fs).1 = none := by rw [h0]; exact hf0
  have hs0 : (nextFault fs).2 = s0 := by rw [h0]
  have hf1 : (nextFault s0).1 = f1 := by rw [h1]
  refine ⟨?_, ?_, ?_, ?_, ?_, ?_, ?_, ?_, ?_, ?_, ?_, ?_, ?_, ?_, ?_⟩
  · intro hcode hi
    rw [Create_code json db fs retries id info data hcode hjson hs, hs0, hf1]
    exact hi
  · intro hcode ht
    exact Create_start_error json db fs s0 s1 f0 f1 retries id info data e hcode hjson h0 hf0
      h1 ht
  · intro hcode ht hfail hplain
    exact Create_insert_error json db fs s0 s1 s2 s3 s4 f0 f1 f2 f3 f4 retries id info data
      hcode hjson h0 hf0 h1 ht h2 h3 h4 hfail hplain
  · intro hf
    unfold GetByCode
    rw [getData_find_error json db fs s0 s1 f0 f1 k e h0 hf0 h1 he hf]
  · intro hf
    unfold GetByAccess
    rw [getBasicID_find_error db.access fs s0 s1 f0 f1 k e h0 hf0 h1 he hf]
    simp
  · intro hf
    unfold GetByRefresh
    rw [getBasicID_find_error db.refresh fs s0 s1 f0 f1 k e h0 hf0 h1 he hf]
    simp
  · intro hf2 d hd hb
    unfold GetByAccess
    rw [getBasicID_find_ok db.access fs s0 s1 f0 f1 k d h0 hf0 h1 hd]
    simp only [ne_eq, not_true_eq_false, false_and, if_false]
    rw [getData_find_error json db s1 s2 s3 f2 f3 d.BasicID e h2 hf2 h3 he hb]
  · intro hf2 d hd hb
    unfold GetByRefresh
    rw [getBasicID_find_ok db.refresh fs s0 s1 f0 f1 k d h0 hf0 h1 hd]
    simp only [ne_eq, not_true_eq_false, false_and, if_false]
    rw [getData_find_error json db s1 s2 s3 f2 f3 d.BasicID e h2 hf2 h3 he hb]
  · exact Create_no_session json db gs retries id info data hjson hg
  · unfold GetByCode
    rw [getData_no_session json db gs k hg]
  · unfold GetByAccess GetByCode
    rw [getBasicID_no_session db.access gs k hg]
    simp
  · unfold GetByRefresh GetByCode
    rw [getBasicID_no_session db.refresh gs k hg]
    simp
  · unfold RemoveByCode
    rw [cHandler_fail _ _ _ hg]
  · unfold RemoveByAccess
    rw [cHandler_fail _ _ _ hg]
  · unfold RemoveByRefresh
    rw [cHandler_fail _ _ _ hg]

/-- C8 amended, at concrete inputs. On `sampleDB`, with a session that starts and a
next call that fails with `connection reset`: `Create` of a code grant returns that
error (its insert), `Create` of a token grant returns it (its `StartTransaction`),
`GetByCode` and `GetByAccess` return it (their find). On the empty store, with a
Basic insert that fails with `connection reset`, which carries no label, `Create`
returns an error and writes nothing. On `sampleDB`, with a find of the Basic record
that fails, `GetByAccess` returns the error. With a session that cannot be started,
`Create` returns no error and leaves the store as it was. -/
theorem C8_storage_failures_witness :
    (Create sampleCodec sampleDB [Fault.ok, Fault.fail connectionReset] 2 otherID
      sampleCodeGrant).2 = some connectionReset ∧
    Create sampleCodec sampleDB [Fault.ok, Fault.fail connectionReset] 2 otherID
      (sampleGrant 3600 7200) = (sampleDB, some connectionReset) ∧
    GetByCode sampleCodec sampleDB [Fault.ok, Fault.fail connectionReset] "A"
      = (none, some connectionReset) ∧
    GetByAccess sampleCodec sampleDB [Fault.ok, Fault.fail connectionReset] "A"
      = (none, some connectionReset) ∧
    (∃ e1, Create sampleCodec DB.empty [Fault.ok, Fault.ok, Fault.fail connectionReset] 2
      sampleID (sampleGrant 3600 7200) = (DB.empty, some e1)) ∧
    GetByAccess sampleCodec sampleDB [Fault.ok, Fault.ok, Fault.ok, Fault.fail connectionReset]
      "A" = (none, some connectionReset) ∧
    Create sampleCodec sampleDB [Fault.fail connectionRefused] 2 otherID
      (sampleGrant 3600 7200) = (sampleDB, none) :=
  have hne : connectionReset ≠ ErrNoDocuments := by decide
  have hgs : StartSession (nextFault [Fault.fail connectionRefused]).1 ≠ none := by decide
  have hA := C8_storage_failures sampleCodec sampleDB [Fault.ok, Fault.fail connectionReset]
    [Fault.fail connectionReset] [] [] [] [] [Fault.fail connectionRefused]
    Fault.ok (Fault.fail connectionReset) Fault.ok Fault.ok Fault.ok 2 otherID
    (sampleGrant 3600 7200) (encGrant (sampleGrant 3600 7200)) "A" connectionReset
    rfl rfl rfl rfl rfl rfl rfl hne hgs
  have hB := C8_storage_failures sampleCodec sampleDB [Fault.ok, Fault.fail connectionReset]
    [Fault.fail connectionReset] [] [] [] [] [Fault.fail connectionRefused]
    Fault.ok (Fault.fail connectionReset) Fault.ok Fault.ok Fault.ok 2 otherID
    sampleCodeGrant (encGrant sampleCodeGrant) "A" connectionReset
    rfl rfl rfl rfl rfl rfl rfl hne hgs
  have hC := C8_storage_failures sampleCodec DB.empty
    [Fault.ok, Fault.ok, Fault.fail connectionReset]
    [Fault.ok, Fault.fail connectionReset] [Fault.fail connectionReset] [] [] []
    [Fault.fail connectionRefused]
    Fault.ok Fault.ok (Fault.fail connectionReset) Fault.ok Fault.ok 2 sampleID
    (sampleGrant 3600 7200) (encGrant (sampleGrant 3600 7200)) "A" connectionReset
    rfl rfl rfl rfl rfl rfl rfl hne hgs
  have hD := C8_storage_failures sampleCodec sampleDB
    [Fault.ok, Fault.ok, Fault.ok, Fault.fail connectionReset]
    [Fault.ok, Fault.ok, Fault.fail connectionReset] [Fault.ok, Fault.fail connectionReset]
    [Fault.fail connectionReset] [] [] [Fault.fail connectionRefused]
    Fault.ok Fault.ok Fault.ok (Fault.fail connectionReset) Fault.ok 2 otherID
    (sampleGrant 3600 7200) (encGrant (sampleGrant 3600 7200)) "A" connectionReset
    rfl rfl rfl rfl rfl rfl rfl hne hgs
  ⟨hB.1 (by decide) rfl, hA.2.1 rfl rfl, hA.2.2.2.1 rfl, hA.2.2.2.2.1 rfl,
    hC.2.2.1 rfl rfl (Or.inl (by decide)) (Or.inr (by
      intro e1 h
      have hb : (InsertOne basicData.ID DB.empty.basic
          ⟨sampleID.Hex, encGrant (sampleGrant 3600 7200),
            (Create.expiry (sampleGrant 3600 7200)).2⟩ (Fault.fail connectionReset)).2
          = some connectionReset := rfl
      have ha : (InsertOne tokenData.ID DB.empty.access
          ⟨(sampleGrant 3600 7200).Access, sampleID.Hex,
            (Create.expiry (sampleGrant 3600 7200)).1⟩ Fault.ok).2 = none := by decide
      have hr : (InsertOne tokenData.ID DB.empty.refresh
          ⟨(sampleGrant 3600 7200).Refresh, sampleID.Hex,
            (Create.expiry (sampleGrant 3600 7200)).2⟩ Fault.ok).2 = none := by decide
      rw [hb, ha, hr] at h
      rcases h with h | h | h
      · rw [← Option.some.inj h]
        decide
      · exact absurd h (by simp)
      · exact absurd h (by simp))),
    hD.2.2.2.2.2.2.1 rfl ⟨"A", "000102030405060708090aff", ⟨3600000000000⟩⟩ rfl rfl,
    hA.2.2.2.2.2.2.2.2.1⟩

end Mongo
